import Mathlib

/-!
# Verification of the Fleety FAQ retrieval-and-grounding pipeline

Shallow embedding of the retrieval pipeline of the Fleety backend
(`app/services/semantic_search.py`, `app/services/rag_service.py`,
`app/services/chatbot_safety.py`, `app/services/analytics.py`).

Modelling conventions:
* Text is `List Char` (ASCII semantics for `lower`, `\w`, `\s`; the corpus
  and queries of this development are ASCII).
* Python `float` arithmetic is modelled by exact rationals `ℚ`.
* Python's `difflib.SequenceMatcher` (stdlib, called with `isjunk=None`)
  is modelled faithfully below, including the `autojunk` popularity filter
  (active only for second sequences of length ≥ 200) and the non-junk
  extension phases of `find_longest_match`; with `isjunk=None` the junk set
  `bjunk` is empty, so the two junk-extension loops of the original never
  run and are omitted.
* Functions that the source writes with unbounded loops / queue recursion
  are written with an explicit fuel argument that provably suffices
  (each recursive step strictly shrinks the windows / the scanned list),
  so that every definition is structurally recursive and executable.
* `datetime.now()` timestamps are modelled as explicit integer arguments
  (seconds); `timedelta(minutes=5)` is the constant 300.
-/

namespace Fleety

/-- Python `str.lower()` (ASCII). -/
def lowerL (s : List Char) : List Char := s.map Char.toLower

/-- Python `str.strip()`: drop leading and trailing whitespace. -/
def stripL (s : List Char) : List Char :=
  ((s.dropWhile Char.isWhitespace).reverse.dropWhile Char.isWhitespace).reverse

/-- A `\w` character of Python `re` (ASCII): alphanumeric or underscore. -/
def isWordChar (c : Char) : Bool := c.isAlphanum || c = '_'

/-- `SemanticSearch.normalize_text`: lowercase, strip, then delete every
character that is neither `\w` nor `\s` (`re.sub(r'[^\w\s]', '', text)`). -/
def normalize_text (s : List Char) : List Char :=
  (stripL (lowerL s)).filter (fun c => isWordChar c || c.isWhitespace)

/-- Helper of `splitWs`: accumulate the current word (reversed). -/
def splitWsAux : List Char → List Char → List (List Char)
  | [], acc => if acc.isEmpty then [] else [acc.reverse]
  | c :: r, acc =>
    if c.isWhitespace then
      (if acc.isEmpty then splitWsAux r [] else acc.reverse :: splitWsAux r [])
    else splitWsAux r (c :: acc)

/-- Python `str.split()` with no argument: split on whitespace runs,
discarding empty pieces. -/
def splitWs (s : List Char) : List (List Char) := splitWsAux s []

/-- Python `' '.join(words)`. -/
def joinSpace : List (List Char) → List Char
  | [] => []
  | [w] => w
  | w :: ws => w ++ ' ' :: joinSpace ws

/-- Python `sub in s` (substring containment). -/
def isSubstr (sub : List Char) : List Char → Bool
  | [] => sub.isEmpty
  | c :: r => sub.isPrefixOf (c :: r) || isSubstr sub r

/-- All suffixes of a list (including itself and `[]`). -/
def tails : List Char → List (List Char)
  | [] => [[]]
  | c :: r => (c :: r) :: tails r

/-- Fueled helper of `strCount`; the fuel (initially the length of the
scanned text) bounds the number of scan steps, each of which consumes at
least one character. -/
def strCountF (sub : List Char) : Nat → List Char → Nat
  | 0, _ => 0
  | _ + 1, [] => 0
  | f + 1, c :: r =>
    if sub.isPrefixOf (c :: r) && !sub.isEmpty then
      1 + strCountF sub f ((c :: r).drop sub.length)
    else strCountF sub f r

/-- Python `s.count(sub)`: non-overlapping occurrence count (an empty
needle counts `len(s) + 1` occurrences, as in Python). -/
def strCount (sub s : List Char) : Nat :=
  if sub.isEmpty then s.length + 1 else strCountF sub s.length s

/-! ## `difflib.SequenceMatcher` (stdlib), as used with `isjunk=None`

`ratio() = 2 * M / (len(a) + len(b))` where `M` is the total size of the
matching blocks found by the recursive `get_matching_blocks` /
`find_longest_match` algorithm. -/

/-- The `autojunk` popularity filter of `SequenceMatcher.__chain_b`:
an element of `b` is dropped from `b2j` when `len(b) >= 200` and it occurs
more than `len(b) // 100 + 1` times. -/
def isPopular (b : List Char) (c : Char) : Bool :=
  decide (200 ≤ b.length) && decide (b.length / 100 + 1 < b.count c)

/-- Is `(i, j)` a matching cell of the dynamic program, i.e. does `j`
appear in `b2j[a[i]]` (equal characters, `b`'s not dropped by
`autojunk`)? -/
def okCell (a b : List Char) (i j : Nat) : Bool :=
  match a.get? i, b.get? j with
  | some x, some y => x = y && !isPopular b y
  | _, _ => false

/-- Length of the matching run ending at cell `(i, j)` inside the window
`[alo, _) × [blo, _)`, skipping popular (`autojunk`-dropped) elements of
`b`: this is exactly the value `j2len[j]` that the dictionary dynamic
program of `find_longest_match` assigns to cell `(i, j)`.  The fuel is the
diagonal length `min (i+1-alo) (j+1-blo)`, an upper bound on the run. -/
def runGo (a b : List Char) (alo blo : Nat) : Nat → Nat → Nat → Nat
  | _, _, 0 => 0
  | i, j, f + 1 =>
    if okCell a b i j then
      if alo < i && blo < j then runGo a b alo blo (i - 1) (j - 1) f + 1 else 1
    else 0

/-- Matching-run length at cell `(i, j)` (see `runGo`). -/
def runEnd (a b : List Char) (alo blo i j : Nat) : Nat :=
  runGo a b alo blo i j (min (i + 1 - alo) (j + 1 - blo))

/-- One step of the `find_longest_match` dynamic program: visit cell
`(i, j)` and replace the current best `(besti, bestj, bestsize)` when the
run ending there is strictly longer (`if k > bestsize`). -/
def cellStep (a b : List Char) (alo blo : Nat)
    (best : Nat × Nat × Nat) (ij : Nat × Nat) : Nat × Nat × Nat :=
  let k := runEnd a b alo blo ij.1 ij.2
  if best.2.2 < k then (ij.1 + 1 - k, ij.2 + 1 - k, k) else best

/-- The cells of the window, in the visit order of the Python loops:
`i` ascending, then `j` ascending. -/
def cells (alo ahi blo bhi : Nat) : List (Nat × Nat) :=
  (List.range' alo (ahi - alo)).flatMap
    (fun i => (List.range' blo (bhi - blo)).map (fun j => (i, j)))

/-- The dictionary dynamic program of `find_longest_match`: fold the cell
visits, starting from `(alo, blo, 0)`. -/
def dpBest (a b : List Char) (alo ahi blo bhi : Nat) : Nat × Nat × Nat :=
  (cells alo ahi blo bhi).foldl (cellStep a b alo blo) (alo, blo, 0)

/-- The left (non-junk) extension loop of `find_longest_match`: how far the
best block extends leftwards by equal characters.  Fuel `i` bounds the
extension. -/
def extLeft (a b : List Char) (alo blo : Nat) : Nat → Nat → Nat → Nat
  | _, _, 0 => 0
  | i, j, f + 1 =>
    if alo < i && blo < j then
      match a.get? (i - 1), b.get? (j - 1) with
      | some x, some y =>
        if x = y then extLeft a b alo blo (i - 1) (j - 1) f + 1 else 0
      | _, _ => 0
    else 0

/-- The right (non-junk) extension loop of `find_longest_match`.  Fuel
`ahi - i` bounds the extension. -/
def extRight (a b : List Char) (ahi bhi : Nat) : Nat → Nat → Nat → Nat
  | _, _, 0 => 0
  | i, j, f + 1 =>
    if i < ahi && j < bhi then
      match a.get? i, b.get? j with
      | some x, some y =>
        if x = y then extRight a b ahi bhi (i + 1) (j + 1) f + 1 else 0
      | _, _ => 0
    else 0

/-- The left extension phase applied to a block `t = (besti, bestj,
bestsize)`: widen it leftwards by `extLeft`. -/
def applyExtLeft (a b : List Char) (alo blo : Nat) (t : Nat × Nat × Nat) :
    Nat × Nat × Nat :=
  (t.1 - extLeft a b alo blo t.1 t.2.1 t.1,
   t.2.1 - extLeft a b alo blo t.1 t.2.1 t.1,
   t.2.2 + extLeft a b alo blo t.1 t.2.1 t.1)

/-- The right extension phase applied to a block: widen it rightwards by
`extRight`. -/
def applyExtRight (a b : List Char) (ahi bhi : Nat) (t : Nat × Nat × Nat) :
    Nat × Nat × Nat :=
  (t.1, t.2.1,
   t.2.2 + extRight a b ahi bhi (t.1 + t.2.2) (t.2.1 + t.2.2) (ahi - (t.1 + t.2.2)))

/-- `SequenceMatcher.find_longest_match(alo, ahi, blo, bhi)` with
`isjunk=None`: the dynamic program, then the two non-junk extension
phases (the junk phases never run since `bjunk` is empty). -/
def findLongestMatch (a b : List Char) (alo ahi blo bhi : Nat) : Nat × Nat × Nat :=
  applyExtRight a b ahi bhi (applyExtLeft a b alo blo (dpBest a b alo ahi blo bhi))

/-- Total size of the matching blocks of `get_matching_blocks` on the
window: find the longest match, recurse on the pieces left and right of
it. Each recursive call strictly shrinks `(ahi - alo) + (bhi - blo)`
(see `findLongestMatch_bounds`), so fuel `(ahi - alo) + (bhi - blo) + 1`
suffices. -/
def matchSumF (a b : List Char) : Nat → Nat → Nat → Nat → Nat → Nat
  | 0, _, _, _, _ => 0
  | f + 1, alo, ahi, blo, bhi =>
    if alo < ahi && blo < bhi then
      if (findLongestMatch a b alo ahi blo bhi).2.2 = 0 then 0
      else
        matchSumF a b f alo (findLongestMatch a b alo ahi blo bhi).1 blo
            (findLongestMatch a b alo ahi blo bhi).2.1 +
          (findLongestMatch a b alo ahi blo bhi).2.2 +
          matchSumF a b f
            ((findLongestMatch a b alo ahi blo bhi).1 +
              (findLongestMatch a b alo ahi blo bhi).2.2) ahi
            ((findLongestMatch a b alo ahi blo bhi).2.1 +
              (findLongestMatch a b alo ahi blo bhi).2.2) bhi
    else 0

/-- Total matched size `M` of `SequenceMatcher(None, a, b)`. -/
def matchSum (a b : List Char) : Nat :=
  matchSumF a b (a.length + b.length + 1) 0 a.length 0 b.length

/-- `SequenceMatcher.ratio()`: `2.0 * M / T` where `T` is the sum of the
lengths, and `1.0` when both sequences are empty. -/
def ratioQ (a b : List Char) : ℚ :=
  if a.length + b.length = 0 then 1
  else 2 * (matchSum a b : ℚ) / ((a.length : ℚ) + (b.length : ℚ))

/-! ## `SemanticSearch` (`app/services/semantic_search.py`) -/

/-- `SemanticSearch.synonym_map` (verbatim, including the duplicated
`'notification'` in the `'reminder'` entry). -/
def synonym_map : List (List Char × List (List Char)) :=
  [ (("add").toList, [("create").toList, ("register").toList, ("new").toList, ("insert").toList]),
    (("vehicle").toList, [("car").toList, ("truck").toList, ("fleet").toList, ("auto").toList, ("automobile").toList]),
    (("delete").toList, [("remove").toList, ("erase").toList, ("drop").toList]),
    (("edit").toList, [("modify").toList, ("update").toList, ("change").toList]),
    (("maintenance").toList, [("service").toList, ("repair").toList, ("upkeep").toList, ("servicing").toList]),
    (("record").toList, [("history").toList, ("log").toList, ("entry").toList, ("document").toList]),
    (("cost").toList, [("price").toList, ("expense").toList, ("fee").toList, ("charge").toList, ("amount").toList]),
    (("reminder").toList, [("alert").toList, ("notification").toList, ("notification").toList, ("reminder").toList]),
    (("due").toList, [("upcoming").toList, ("scheduled").toList, ("coming").toList]),
    (("report").toList, [("analysis").toList, ("analytics").toList, ("data").toList, ("summary").toList, ("statistics").toList]),
    (("export").toList, [("download").toList, ("save").toList, ("extract").toList, ("generate").toList]),
    (("account").toList, [("profile").toList, ("user account").toList, ("login account").toList]),
    (("login").toList, [("sign in").toList, ("authenticate").toList, ("access").toList]),
    (("password").toList, [("credentials").toList, ("secret").toList, ("pass").toList]),
    (("signup").toList, [("register").toList, ("create account").toList, ("join").toList]),
    (("team").toList, [("members").toList, ("users").toList, ("people").toList, ("staff").toList]),
    (("invite").toList, [("add member").toList, ("include").toList, ("join").toList]),
    (("role").toList, [("permission").toList, ("access level").toList, ("responsibility").toList]),
    (("how").toList, [("what is the way").toList, ("procedure").toList, ("steps").toList, ("guide").toList]),
    (("track").toList, [("monitor").toList, ("follow").toList, ("watch").toList, ("trace").toList]),
    (("payment").toList, [("billing").toList, ("subscription").toList, ("pricing").toList, ("charges").toList]) ]

/-- `SemanticSearch.expand_with_synonyms`: normalize, split into words,
append the synonym list of every word that is a key of the map, join with
single spaces. -/
def expand_with_synonyms (text : List Char) : List Char :=
  let normalized := normalize_text text
  let words := splitWs normalized
  let expanded := words ++ words.flatMap (fun w => (synonym_map.lookup w).getD [])
  joinSpace expanded

/-- `SemanticSearch.calculate_similarity`:
`0.4 * direct ratio + 0.6 * synonym-expanded ratio` (the source computes
`norm1`/`norm2` once and feeds them to both the direct ratio and the
expansion). -/
def calculate_similarity (text1 text2 : List Char) : ℚ :=
  ratioQ (normalize_text text1) (normalize_text text2) * 0.4 +
    ratioQ (expand_with_synonyms (normalize_text text1))
      (expand_with_synonyms (normalize_text text2)) * 0.6

/-! ### The regex fragment used by `intent_patterns`

Every pattern of `SemanticSearch.intent_patterns` is a concatenation of
literal segments joined by `.*`.  `re.search` succeeds iff some suffix of
the text starts with the first segment and the later segments follow in
order, with the gaps free of `'\n'` (`.` does not match a newline). -/

/-- Suffixes of `s` reachable by letting `.*` consume a (possibly empty)
newline-free prefix. -/
def gapTails : List Char → List (List Char)
  | [] => [[]]
  | c :: r => (c :: r) :: (if c = '\n' then [] else gapTails r)

/-- Match a `.*`-joined segment list at the start of `s`. -/
def matchSegs : List (List Char) → List Char → Bool
  | [], _ => true
  | seg :: rest, s =>
    seg.isPrefixOf s && (gapTails (s.drop seg.length)).any (fun t => matchSegs rest t)

/-- `re.search` of a `.*`-joined segment list: match may start anywhere. -/
def reSearch (segs : List (List Char)) (s : List Char) : Bool :=
  (tails s).any (fun t => matchSegs segs t)

/-- Fueled helper of `splitDotStar` (the fuel, initially the pattern
length, bounds the scan). -/
def splitDotStarF : Nat → List Char → List Char → List (List Char)
  | _, cur, [] => [cur.reverse]
  | 0, cur, l => [cur.reverse ++ l]
  | f + 1, cur, c :: r =>
    if c = '.' && r.head? = some '*' then cur.reverse :: splitDotStarF f [] r.tail
    else splitDotStarF f (c :: cur) r

/-- Split a regex pattern into its literal segments at each `.*`. -/
def splitDotStar (p : List Char) : List (List Char) := splitDotStarF p.length [] p

/-- `SemanticSearch.intent_patterns` (verbatim, in insertion order). -/
def intent_patterns : List (List Char × List (List Char)) :=
  [ (("add_vehicle").toList, [("add.*vehicle").toList, ("new.*vehicle").toList, ("register.*vehicle").toList, ("create.*car").toList]),
    (("maintenance").toList, [("maintenance").toList, ("service").toList, ("repair").toList, ("upkeep").toList]),
    (("reminder").toList, [("reminder").toList, ("alert").toList, ("notification").toList, ("due.*date").toList]),
    (("track_cost").toList, [("track.*cost").toList, ("maintenance.*cost").toList, ("spending").toList, ("expense").toList]),
    (("account_setup").toList, [("create.*account").toList, ("sign.*up").toList, ("register").toList, ("account").toList]),
    (("login").toList, [("login").toList, ("sign.*in").toList, ("access").toList, ("password").toList]),
    (("export").toList, [("export").toList, ("download").toList, ("report").toList, ("generate").toList]),
    (("gps").toList, [("gps").toList, ("location").toList, ("track.*vehicle").toList, ("real.*time").toList]),
    (("team").toList, [("team").toList, ("invite").toList, ("member").toList, ("role").toList, ("permission").toList]),
    (("compliance").toList, [("compliance").toList, ("license").toList, ("driver").toList]) ]

/-- Does `re.search(pattern, query_lower)` succeed? -/
def patHit (ql pat : List Char) : Bool := reSearch (splitDotStar pat) ql

/-- The score-escalation test of `detect_intent`:
`query_lower.count(pattern.split('[')[0][:5]) > 1`. -/
def patBoost (ql pat : List Char) : Bool :=
  1 < strCount ((pat.takeWhile (fun c => c ≠ '[')).take 5) ql

/-- `SemanticSearch.detect_intent`: scan all intent patterns in order;
a matching pattern scores `0.9`, escalated to `1.0` when its 5-character
stem occurs more than once; keep the strictly best `(intent, score)`,
starting from `('general', 0.0)`. -/
def detect_intent (query : List Char) : List Char × ℚ :=
  let ql := lowerL query
  intent_patterns.foldl
    (fun best ip =>
      ip.2.foldl
        (fun best pat =>
          if patHit ql pat then
            if best.2 < (if patBoost ql pat then (1 : ℚ) else 0.9) then
              (ip.1, if patBoost ql pat then (1 : ℚ) else 0.9)
            else best
          else best)
        best)
    (("general").toList, 0)

/-- Companion of `detect_intent` with the score coded as a `Nat`
(`0 ↦ 0.0`, `1 ↦ 0.9`, `2 ↦ 1.0`); used to evaluate `detect_intent` on
concrete queries by `decide` (rational literals do not reduce in the
kernel).  `detect_intent_eq_nat` proves the two agree. -/
def detect_intent_nat (query : List Char) : List Char × Nat :=
  let ql := lowerL query
  intent_patterns.foldl
    (fun best ip =>
      ip.2.foldl
        (fun best pat =>
          if patHit ql pat then
            if best.2 < (if patBoost ql pat then 2 else 1) then
              (ip.1, if patBoost ql pat then 2 else 1)
            else best
          else best)
        best)
    (("general").toList, 0)

/-- An FAQ corpus entry: a dict with keys `question`, `answer` and an
optional `category` (`faq.get('question', '')` etc.). -/
structure FAQ where
  question : List Char
  answer : List Char
  category : Option (List Char)
deriving DecidableEq, Repr

/-- The per-entry similarity score of the `search_faqs` loop:
`max(q_similarity, a_similarity * 0.5)`, boosted by `1.2` (capped at
`1.0`) when the entry's category and the detected intent substring-match
in either direction. -/
def entryScore (query intent : List Char) (faq : FAQ) : ℚ :=
  let q_similarity := calculate_similarity query faq.question
  let a_similarity := calculate_similarity query faq.answer * 0.5
  let similarity := max q_similarity a_similarity
  match faq.category with
  | some cat =>
    if isSubstr (lowerL cat) (lowerL intent) || isSubstr intent (lowerL cat) then
      min (similarity * 1.2) 1
    else similarity
  | none => similarity

/-- Stable descending insertion: `x` goes before the first element whose
score is strictly smaller, i.e. after every earlier element with an equal
or larger score. -/
def insertDesc (x : FAQ × ℚ) : List (FAQ × ℚ) → List (FAQ × ℚ)
  | [] => [x]
  | y :: ys => if y.2 ≤ x.2 then x :: y :: ys else y :: insertDesc x ys

/-- Stable descending sort by score — the unique stable descending order,
which is what Python's `list.sort(key=lambda x: x[1], reverse=True)`
produces (Python's sort is stable and `reverse=True` preserves the
original order of equal elements). -/
def sortDesc : List (FAQ × ℚ) → List (FAQ × ℚ)
  | [] => []
  | x :: xs => insertDesc x (sortDesc xs)

/-- `SemanticSearch.search_faqs`: empty (after strip) queries return `[]`;
otherwise score every entry (with the category/intent boost), keep those
with `similarity >= threshold` in corpus order, sort stably by descending
score, truncate to `top_k`. -/
def search_faqs (query : List Char) (faqs : List FAQ) (top_k : Nat) (threshold : ℚ) :
    List (FAQ × ℚ) :=
  if (stripL query).isEmpty then []
  else
    let intent := (detect_intent query).1
    let results := faqs.filterMap (fun faq =>
      let similarity := entryScore query intent faq
      if threshold ≤ similarity then some (faq, similarity) else none)
    (sortDesc results).take top_k

/-- An FAQ dict after `_keyword_search_faqs` attached its
`similarity_score`. -/
structure SFAQ where
  question : List Char
  answer : List Char
  category : Option (List Char)
  similarity_score : ℚ
deriving DecidableEq, Repr

/-- Result dict of `SemanticSearch.ground_answer`. -/
structure GroundingResult where
  grounded_answer : List Char
  grounding_faqs : List SFAQ
  is_grounded : Bool
  confidence : ℚ
deriving DecidableEq, Repr

/-- The low-confidence hedging note appended by `ground_answer`. -/
def groundingNote : List Char :=
  ("\n\n*Note: This answer is based on available documentation. For specific details, please contact our support team.*").toList

/-- The fixed no-information message of `ground_answer` (with the query
interpolated). -/
def noInfoMessage (query : List Char) : List Char :=
  ("I couldn't find specific information about '").toList ++ query ++
    ("' in our FAQ database. \n\nPlease contact our support team at support@fleety.com for detailed assistance. We're here to help!").toList

/-- `SemanticSearch.ground_answer`: grounded iff the match list is
non-empty; confidence is the best `similarity_score`; below `0.6` a fixed
hedging note is appended, otherwise the answer is unchanged; with no
matches the answer is replaced by a fixed contact-support message and
confidence is `0.0`. -/
def ground_answer (query : List Char) (faq_results : List SFAQ) (answer : List Char) :
    GroundingResult :=
  match faq_results with
  | [] => ⟨noInfoMessage query, [], false, 0⟩
  | f :: rest =>
    let confidence := (rest.map (fun x => x.similarity_score)).foldl max f.similarity_score
    let grounding_note := if confidence < 0.6 then groundingNote else []
    ⟨answer ++ grounding_note, f :: rest, true, confidence⟩

/-- The staleness markers of `validate_answer_freshness`. -/
def outdated_markers : List (List Char) :=
  [ ("coming soon").toList, ("will be available").toList, ("future release").toList,
    ("planned for").toList, ("deprecated").toList, ("no longer").toList, ("obsolete").toList ]

/-- `SemanticSearch.validate_answer_freshness`: `false` (potentially
outdated) iff the lowercased answer contains a staleness marker. -/
def validate_answer_freshness (faq : FAQ) : Bool :=
  !(outdated_markers.any (fun marker => isSubstr marker (lowerL faq.answer)))

/-! ## `RAGService` (`app/services/rag_service.py`)

The MongoDB corpus fetch (`faq_model.find_all()`) is modelled by an
explicit `all_faqs` argument; the external Gemini call of
`generate_llm_answer` is modelled by an oracle argument
`llm : Option (List Char)` (`none` = unavailable, which triggers the
best-match fallback).  The analytics metadata attached to responses
(`build_metadata`) contains a wall-clock timestamp and is not part of any
claim; it is omitted from the modelled result record. -/

/-- `RAGService.classify_query_intent`: first-match-wins keyword buckets. -/
def classify_query_intent (query : List Char) : List Char :=
  let ql := lowerL query
  if [("register").toList, ("sign up").toList, ("create account").toList, ("new account").toList, ("get started").toList].any (fun t => isSubstr t ql) then
    ("registration").toList
  else if [("password").toList, ("login").toList, ("forgot").toList, ("reset password").toList, ("locked out").toList, ("can't login").toList].any (fun t => isSubstr t ql) then
    ("password_help").toList
  else if [("vehicle").toList, ("add vehicle").toList, ("car").toList, ("truck").toList, ("fleet").toList, ("register vehicle").toList].any (fun t => isSubstr t ql) then
    ("vehicle_management").toList
  else if [("maintenance").toList, ("service").toList, ("repair").toList, ("oil change").toList, ("reminder").toList].any (fun t => isSubstr t ql) then
    ("maintenance").toList
  else if [("fuel").toList, ("efficiency").toList, ("cost").toList, ("consumption").toList, ("analytics").toList].any (fun t => isSubstr t ql) then
    ("fuel_tracking").toList
  else ("general").toList

/-- `RAGService.should_override_similar_matches`: `False` when fewer than
two matches; otherwise `True` exactly when the classified intent and the
lowercased top-match question conflict per the three keyword rules. -/
def should_override_similar_matches (_query : List Char) (match_list : List SFAQ)
    (query_intent : List Char) : Bool :=
  match match_list with
  | [] => false
  | top :: rest =>
    if rest.isEmpty then false
    else
      let top_match := lowerL top.question
      (query_intent = ("registration").toList &&
        [("password").toList, ("forgot").toList, ("reset").toList].any (fun t => isSubstr t top_match)) ||
      (query_intent = ("password_help").toList &&
        [("register").toList, ("sign up").toList, ("create account").toList].any (fun t => isSubstr t top_match)) ||
      (query_intent = ("vehicle_management").toList &&
        [("maintenance").toList, ("service").toList, ("repair").toList].any (fun t => isSubstr t top_match))

/-- The canned registration template of `get_direct_answer_template`. -/
def registrationTemplate : List Char :=
  ("To register for Fleety Fleet Management:\n\n1. Visit our website and click 'Start Free Trial' or 'Sign Up'\n2. Enter your company information (company name, email)\n3. Create a secure password\n4. Verify your email address by clicking the link sent to your inbox\n5. Set up your fleet profile and add your first vehicle\n\nOnce registered, you can immediately start:\n- Adding and managing vehicles\n- Setting up maintenance schedules\n- Tracking fuel efficiency\n- Generating fleet reports\n\nFor login issues, use the 'Forgot Password' option on the login page.").toList

/-- The canned password-reset template of `get_direct_answer_template`. -/
def passwordTemplate : List Char :=
  ("To reset your password:\n\n1. Go to the Fleety login page\n2. Click 'Forgot Password'\n3. Enter the email associated with your account\n4. Check your email for a reset link (check spam folder if needed)\n5. Click the link and follow the instructions to create a new password\n6. Use your new password to log in\n\nIf you don't receive the email within 5 minutes, please contact support@fleety.com").toList

/-- `RAGService.get_direct_answer_template`: canned answers for the
`registration` and `password_help` intents, `None` otherwise. -/
def get_direct_answer_template (query_intent : List Char) : Option (List Char) :=
  if query_intent = ("registration").toList then some registrationTemplate
  else if query_intent = ("password_help").toList then some passwordTemplate
  else none

/-- `RAGService._keyword_search_faqs`: empty corpus short-circuits;
otherwise run `search_faqs` with `threshold=0.3`, then drop entries that
fail `validate_answer_freshness`, attaching `similarity_score` to the
survivors. -/
def keyword_search_faqs (query : List Char) (all_faqs : List FAQ) (top_k : Nat) :
    List SFAQ :=
  if all_faqs.isEmpty then []
  else
    (search_faqs query all_faqs top_k 0.3).filterMap (fun p =>
      if validate_answer_freshness p.1 then
        some ⟨p.1.question, p.1.answer, p.1.category, p.2⟩
      else none)

/-- The domain keyword lists of `_validate_context_appropriateness`. -/
def registration_keywords : List (List Char) :=
  [("register").toList, ("sign up").toList, ("create account").toList, ("account creation").toList]

/-- Password-domain keywords of `_validate_context_appropriateness`. -/
def password_keywords : List (List Char) :=
  [("password").toList, ("forgot").toList, ("reset").toList, ("forgot password").toList]

/-- Vehicle-domain keywords of `_validate_context_appropriateness`. -/
def vehicle_keywords : List (List Char) :=
  [("vehicle").toList, ("add vehicle").toList, ("car").toList, ("truck").toList, ("fleet").toList]

/-- `RAGService._validate_context_appropriateness`: `False` on an empty
match list; otherwise reject (return `False`) on
registration-query/password-answer, password-query/registration-answer,
or a vehicle query whose top question has no vehicle keyword and whose
score is below `0.5`. -/
def validate_context_appropriateness (query : List Char) (relevant_faqs : List SFAQ)
    (similarity_score : ℚ) : Bool :=
  match relevant_faqs with
  | [] => false
  | top :: _ =>
    let ql := lowerL query
    let faq_question := lowerL top.question
    let is_registration_query := registration_keywords.any (fun kw => isSubstr kw ql)
    let is_password_query := password_keywords.any (fun kw => isSubstr kw ql)
    let is_vehicle_query := vehicle_keywords.any (fun kw => isSubstr kw ql)
    let is_password_answer := password_keywords.any (fun kw => isSubstr kw faq_question)
    let is_registration_answer := registration_keywords.any (fun kw => isSubstr kw faq_question)
    let is_vehicle_answer := vehicle_keywords.any (fun kw => isSubstr kw faq_question)
    if is_registration_query && is_password_answer then false
    else if is_password_query && is_registration_answer then false
    else if is_vehicle_query && !is_vehicle_answer && similarity_score < 0.5 then false
    else true

/-- `RAGService.generate_llm_answer`, with the external Gemini call
modelled by the oracle `llm`: when unavailable (`none`), fall back to the
top match's answer, or a fixed message when there are no matches. -/
def generate_llm_answer (llm : Option (List Char)) (relevant_faqs : List SFAQ) :
    List Char :=
  match llm with
  | some text => text
  | none =>
    match relevant_faqs with
    | best :: _ => best.answer
    | [] => ("I couldn't find relevant FAQs. Please contact support.").toList

/-- The clarification answer of `search_and_generate` (context-mismatch
path). -/
def clarificationAnswer (query : List Char) : List Char :=
  ("I want to make sure I understand your question correctly. You asked about '").toList ++
    query ++
    ("'. Could you provide more details so I can give you accurate information? For example, are you trying to [register/add a vehicle/track maintenance/etc.]?").toList

/-- The fixed no-match answer of `search_and_generate`. -/
def noMatchAnswer (query : List Char) : List Char :=
  ("I couldn't find information about '").toList ++ query ++
    ("' in our FAQ database. Please contact our support team at support@fleety.com for assistance.").toList

/-- A cleaned FAQ dict of the response (`question`, `answer`,
`category` defaulted to `"General"`; the database identifier is
omitted from the model). -/
structure CleanFAQ where
  question : List Char
  answer : List Char
  category : List Char
deriving DecidableEq, Repr

/-- The core fields of the `search_and_generate` response (the analytics
metadata, which carries a wall-clock timestamp, is omitted). -/
structure RAGResult where
  answer : List Char
  relevant_faqs : List CleanFAQ
  grounding_confidence : ℚ
  is_grounded : Bool
deriving DecidableEq, Repr

/-- `RAGService.search_and_generate`: classify the intent; short-circuit
on a direct-answer template; retrieve; discard all matches when
`should_override_similar_matches` fires; reject via the context validator
(clarification answer, confidence `0.3`); answer the fixed no-match
message when no matches remain; otherwise generate (LLM or fallback) and
ground the answer. -/
def search_and_generate (llm : Option (List Char)) (all_faqs : List FAQ)
    (query : List Char) : RAGResult :=
  let query_intent := classify_query_intent query
  match get_direct_answer_template query_intent with
  | some direct_answer => ⟨direct_answer, [], 1, true⟩
  | none =>
    let relevant_faqs0 := keyword_search_faqs query all_faqs 5
    let faq_matched0 := !relevant_faqs0.isEmpty
    let similarity_score0 : ℚ :=
      match relevant_faqs0 with
      | [] => 0
      | top :: _ => top.similarity_score
    let override :=
      faq_matched0 && should_override_similar_matches query relevant_faqs0 query_intent
    let relevant_faqs := if override then [] else relevant_faqs0
    let faq_matched := if override then false else faq_matched0
    let similarity_score := if override then 0 else similarity_score0
    if faq_matched &&
        !(validate_context_appropriateness query relevant_faqs similarity_score) then
      ⟨clarificationAnswer query, [], 0.3, false⟩
    else if relevant_faqs.isEmpty then
      ⟨noMatchAnswer query, [], 0, false⟩
    else
      let generated_answer := generate_llm_answer llm relevant_faqs
      let grounding := ground_answer query relevant_faqs generated_answer
      let clean_faqs := relevant_faqs.map (fun f =>
        ⟨f.question, f.answer, f.category.getD (("General").toList)⟩)
      ⟨grounding.grounded_answer, clean_faqs, grounding.confidence, grounding.is_grounded⟩

/-! ## `ChatbotSafety` (`app/services/chatbot_safety.py`)

`datetime.now()` is modelled by an explicit `now : ℤ` argument (seconds);
`timedelta(minutes=5)` is `300`. -/

/-- The mutable per-user state of `ChatbotSafety` (the `defaultdict`s and
the blocked set). -/
structure SafetyState where
  user_message_history : List Char → List (List Char × ℤ)
  user_warnings : List Char → ℤ
  blocked_users : List (List Char)

/-- Fresh `ChatbotSafety` state. -/
def initialSafetyState : SafetyState := ⟨fun _ => [], fun _ => 0, []⟩

/-- `ChatbotSafety.spam_keywords`. -/
def spam_keywords : List (List Char) :=
  [("viagra").toList, ("casino").toList, ("lottery").toList, ("free money").toList, ("click here").toList]

/-- `ChatbotSafety.abuse_patterns`: each regex is a literal (the escaped
`f\*ck` matches the literal `f*ck`), so `re.search` is substring search. -/
def abuse_patterns : List (List Char) :=
  [ ("damn").toList, ("hell").toList, ("bastard").toList, ("idiot").toList, ("stupid").toList,
    ("kill").toList, ("die").toList, ("suck").toList, ("f*ck").toList, ("f##k").toList, ("ass").toList ]

/-- `ChatbotSafety.prompt_injection_keywords`. -/
def prompt_injection_keywords : List (List Char) :=
  [ ("ignore").toList, ("forget").toList, ("bypass").toList, ("override").toList, ("system prompt").toList,
    ("you are").toList, ("pretend").toList, ("roleplay").toList, ("act as").toList, ("forget instructions").toList ]

/-- Suffixes of `s` reachable by consuming one or more leading whitespace
characters (the `\s+` of the malicious-request regexes). -/
def wsTails : List Char → List (List Char)
  | [] => []
  | c :: r => if c.isWhitespace then r :: wsTails r else []

/-- `re.search(r'w1\s+w2', s)`: `w1`, then one or more whitespace
characters, then `w2`, anywhere in `s`. -/
def wsGapSearch (w1 w2 s : List Char) : Bool :=
  (tails s).any (fun t =>
    w1.isPrefixOf t && (wsTails (t.drop w1.length)).any (fun u => w2.isPrefixOf u))

/-- The spam rejection message for repeated messages. -/
def spamRepeatMsg : List Char :=
  ("⚠️ Please avoid sending the same question repeatedly. Try rephrasing or ask something new.").toList

/-- The spam rejection message for spam keywords. -/
def spamKeywordMsg : List Char :=
  ("❌ This message contains spam. Please ask legitimate questions about Fleety.").toList

/-- `ChatbotSafety.check_spam`: reject when 3 or more of the user's
recorded messages of the trailing 5-minute window equal (case-insensitively)
the current message, or when the message contains a spam keyword. -/
def check_spam (st : SafetyState) (now : ℤ) (user_id message : List Char) :
    Bool × List Char :=
  let recent_messages := (st.user_message_history user_id).filterMap
    (fun mt => if now - mt.2 < 300 then some mt.1 else none)
  let identical_count :=
    (recent_messages.filter (fun msg => lowerL msg = lowerL message)).length
  if 3 ≤ identical_count then (true, spamRepeatMsg)
  else if spam_keywords.any (fun kw => isSubstr kw (lowerL message)) then
    (true, spamKeywordMsg)
  else (false, [])

/-- The abusive-language rejection message. -/
def abuseMsg : List Char :=
  ("😊 I'm here to help! Please keep our conversation respectful and family-friendly. Let me know how I can assist you with Fleety.").toList

/-- `ChatbotSafety.check_abusive_language`. -/
def check_abusive_language (message : List Char) : Bool × List Char :=
  if abuse_patterns.any (fun p => isSubstr p (lowerL message)) then (true, abuseMsg)
  else (false, [])

/-- The prompt-injection rejection message. -/
def injectionMsg : List Char :=
  ("🔒 I'm here to help with Fleety questions only. I can't modify my instructions or behavior beyond helping with Fleety support.").toList

/-- `ChatbotSafety.check_prompt_injection`. -/
def check_prompt_injection (message : List Char) : Bool × List Char :=
  if prompt_injection_keywords.any (fun kw => isSubstr kw (lowerL message)) then
    (true, injectionMsg)
  else (false, [])

/-- The malicious-request rejection message. -/
def maliciousMsg : List Char :=
  ("🚫 I've detected a potentially harmful request. For security reasons, this conversation has been reset. Please ask legitimate questions about Fleety.").toList

/-- `ChatbotSafety.check_malicious_request`: the regex patterns
`drop\s+table`, `delete\s+from`, `exec\(`, `eval\(`, `__import__`,
`subprocess`, `os\.system` against the lowercased message. -/
def check_malicious_request (message : List Char) : Bool × List Char :=
  let ml := lowerL message
  if wsGapSearch (("drop").toList) (("table").toList) ml ||
      wsGapSearch (("delete").toList) (("from").toList) ml ||
      isSubstr (("exec(").toList) ml ||
      isSubstr (("eval(").toList) ml ||
      isSubstr (("__import__").toList) ml ||
      isSubstr (("subprocess").toList) ml ||
      isSubstr (("os.system").toList) ml then
    (true, maliciousMsg)
  else (false, [])

/-- `ChatbotSafety.record_message`: append `(message, now)`, then cap the
history at the last 50 entries. -/
def record_message (st : SafetyState) (now : ℤ) (user_id message : List Char) :
    SafetyState :=
  let hist := st.user_message_history user_id ++ [(message, now)]
  let hist := if 50 < hist.length then hist.drop (hist.length - 50) else hist
  ⟨fun u => if u = user_id then hist else st.user_message_history u,
    st.user_warnings, st.blocked_users⟩

/-- `ChatbotSafety.add_warning`: increment the user's warning count; at 3
warnings the user is added to the blocked set. -/
def add_warning (st : SafetyState) (user_id : List Char) : SafetyState :=
  let count := st.user_warnings user_id + 1
  ⟨st.user_message_history,
    fun u => if u = user_id then count else st.user_warnings u,
    if 3 ≤ count then
      (if user_id ∈ st.blocked_users then st.blocked_users else user_id :: st.blocked_users)
    else st.blocked_users⟩

/-- `ChatbotSafety.is_user_blocked`. -/
def is_user_blocked (st : SafetyState) (user_id : List Char) : Bool :=
  user_id ∈ st.blocked_users

/-- `ChatbotSafety.reset_user`: unblock, clear warnings and history. -/
def reset_user (st : SafetyState) (user_id : List Char) : SafetyState :=
  ⟨fun u => if u = user_id then [] else st.user_message_history u,
    fun u => if u = user_id then 0 else st.user_warnings u,
    st.blocked_users.filter (fun u => u ≠ user_id)⟩

/-- The blocked-user rejection message. -/
def blockedMsg : List Char :=
  ("⛔ Your access has been temporarily restricted due to policy violations.").toList

/-- `ChatbotSafety.validate_query`: blocked check, spam, abuse, prompt
injection, malicious request (which resets the user), in that order; a
query passing all checks is recorded.  Returns
`((is_valid, response_message), new state)`. -/
def validate_query (st : SafetyState) (now : ℤ) (user_id query : List Char) :
    (Bool × List Char) × SafetyState :=
  if is_user_blocked st user_id then ((false, blockedMsg), st)
  else
    let spam := check_spam st now user_id query
    if spam.1 then ((false, spam.2), add_warning st user_id)
    else
      let abusive := check_abusive_language query
      if abusive.1 then ((false, abusive.2), add_warning st user_id)
      else
        let injected := check_prompt_injection query
        if injected.1 then ((false, injected.2), add_warning st user_id)
        else
          let malicious := check_malicious_request query
          if malicious.1 then ((false, malicious.2), reset_user st user_id)
          else ((true, []), record_message st now user_id query)

/-! ## `ChatbotAnalytics.detect_sentiment` (`app/services/analytics.py`) -/

/-- The positive indicator words. -/
def positive_words : List (List Char) :=
  [ ("great").toList, ("excellent").toList, ("good").toList, ("perfect").toList,
    ("amazing").toList, ("love").toList, ("helpful").toList, ("thanks").toList ]

/-- The negative indicator words. -/
def negative_words : List (List Char) :=
  [ ("bad").toList, ("terrible").toList, ("poor").toList, ("hate").toList,
    ("broken").toList, ("error").toList, ("problem").toList, ("issue").toList ]

/-- The frustrated indicator words. -/
def frustrated_words : List (List Char) :=
  [ ("frustrat").toList, ("annoyed").toList, ("angry").toList, ("upset").toList, ("confused").toList ]

/-- Python `round(x, 2)` as exact rational banker's rounding (round half
to even), the rounding rule of Python floats; the scores reached by the
claims (`-1.0`, `-0.8`, `0.0`) are exact in both models. -/
def round2 (x : ℚ) : ℚ :=
  let y := x * 100
  let f : ℤ := ⌊y⌋
  let r := y - (f : ℚ)
  let n : ℤ :=
    if r < 1/2 then f
    else if 1/2 < r then f + 1
    else if Even f then f else f + 1
  (n : ℚ) / 100

/-- Result dict of `detect_sentiment`. -/
structure SentimentResult where
  sentiment : List Char
  sentiment_score : ℚ
  positive_indicators : Nat
  negative_indicators : Nat
  frustrated_indicators : Nat
deriving DecidableEq, Repr

/-- `ChatbotAnalytics.detect_sentiment`: count positive / negative /
frustrated indicator words (one per word present, by substring), then:
neutral when no indicator; frustrated (score `-0.8`) when any frustrated
indicator; negative (score `min(-1.0, -(neg / max(1, pos + neg)))`) when
`neg > pos`; positive (score `min(1.0, pos / (pos + neg + 1))`) when
`pos > 0`; neutral otherwise.  The score is rounded to 2 decimals. -/
def detect_sentiment (text : List Char) : SentimentResult :=
  let tl := lowerL text
  let positive_count := (positive_words.filter (fun w => isSubstr w tl)).length
  let negative_count := (negative_words.filter (fun w => isSubstr w tl)).length
  let frustrated_count := (frustrated_words.filter (fun w => isSubstr w tl)).length
  let total := positive_count + negative_count + frustrated_count
  if total = 0 then
    ⟨("neutral").toList, round2 0, positive_count, negative_count, frustrated_count⟩
  else if 0 < frustrated_count then
    ⟨("frustrated").toList, round2 (-0.8), positive_count, negative_count, frustrated_count⟩
  else if positive_count < negative_count then
    ⟨("negative").toList,
      round2 (min (-1 : ℚ)
        (-((negative_count : ℚ) / ((max 1 (positive_count + negative_count) : Nat) : ℚ)))),
      positive_count, negative_count, frustrated_count⟩
  else if 0 < positive_count then
    ⟨("positive").toList,
      round2 (min (1 : ℚ)
        ((positive_count : ℚ) / ((positive_count : ℚ) + (negative_count : ℚ) + 1))),
      positive_count, negative_count, frustrated_count⟩
  else
    ⟨("neutral").toList, round2 0, positive_count, negative_count, frustrated_count⟩

/-! ## Lemmas about the `SequenceMatcher` model -/

/-- A matching run is no longer than its fuel. -/
theorem runGo_le (a b : List Char) (alo blo : Nat) :
    ∀ f i j, runGo a b alo blo i j f ≤ f := by
  intro f
  induction f with
  | zero => intro i j; simp [runGo]
  | succ f ih =>
    intro i j
    unfold runGo
    by_cases hok : okCell a b i j = true
    · rw [if_pos hok]
      by_cases hw : alo < i ∧ blo < j
      · rw [if_pos (by simp [hw.1, hw.2])]
        have := ih (i - 1) (j - 1)
        omega
      · rw [if_neg (by intro h; simp only [Bool.and_eq_true, decide_eq_true_eq] at h; exact hw h)]
        omega
    · rw [if_neg hok]
      omega

/-- A matching run fits inside the window on both sides. -/
theorem runEnd_le (a b : List Char) (alo blo i j : Nat) :
    runEnd a b alo blo i j ≤ i + 1 - alo ∧ runEnd a b alo blo i j ≤ j + 1 - blo := by
  have h := runGo_le a b alo blo (min (i + 1 - alo) (j + 1 - blo)) i j
  unfold runEnd
  omega

/-- The cells of the dynamic program lie inside the window. -/
theorem mem_cells {alo ahi blo bhi : Nat} {p : Nat × Nat}
    (h : p ∈ cells alo ahi blo bhi) :
    alo ≤ p.1 ∧ p.1 < ahi ∧ blo ≤ p.2 ∧ p.2 < bhi := by
  unfold cells at h
  rw [List.mem_flatMap] at h
  obtain ⟨i, hi, hp⟩ := h
  rw [List.mem_map] at hp
  obtain ⟨j, hj, rfl⟩ := hp
  rw [List.mem_range'_1] at hi hj
  exact ⟨hi.1, by omega, hj.1, by omega⟩

/-- Folding preserves an invariant established by the start value. -/
theorem foldl_inv {α β : Type} (P : α → Prop) (f : α → β → α) :
    ∀ (l : List β) (init : α), P init → (∀ acc x, x ∈ l → P acc → P (f acc x)) →
      P (l.foldl f init)
  | [], _, h0, _ => h0
  | x :: l, init, h0, hstep =>
    foldl_inv P f l (f init x) (hstep init x (List.mem_cons_self x l) h0)
      (fun acc y hy hacc => hstep acc y (List.mem_cons_of_mem x hy) hacc)

/-- The block found by the dynamic program lies inside the window. -/
theorem dpBest_bounds (a b : List Char) {alo ahi blo bhi : Nat}
    (ha : alo ≤ ahi) (hb : blo ≤ bhi) :
    alo ≤ (dpBest a b alo ahi blo bhi).1 ∧
    (dpBest a b alo ahi blo bhi).1 + (dpBest a b alo ahi blo bhi).2.2 ≤ ahi ∧
    blo ≤ (dpBest a b alo ahi blo bhi).2.1 ∧
    (dpBest a b alo ahi blo bhi).2.1 + (dpBest a b alo ahi blo bhi).2.2 ≤ bhi := by
  unfold dpBest
  refine foldl_inv
    (fun best => alo ≤ best.1 ∧ best.1 + best.2.2 ≤ ahi ∧ blo ≤ best.2.1 ∧ best.2.1 + best.2.2 ≤ bhi)
    (cellStep a b alo blo) (cells alo ahi blo bhi) (alo, blo, 0)
    (by refine ⟨?_, ?_, ?_, ?_⟩ <;> simp <;> omega) ?_
  intro best p hp hbest
  have hc := mem_cells hp
  have hr := runEnd_le a b alo blo p.1 p.2
  by_cases hk : best.2.2 < runEnd a b alo blo p.1 p.2
  · rw [show cellStep a b alo blo best p =
        (p.1 + 1 - runEnd a b alo blo p.1 p.2, p.2 + 1 - runEnd a b alo blo p.1 p.2,
          runEnd a b alo blo p.1 p.2) from by simp [cellStep, hk]]
    refine ⟨?_, ?_, ?_, ?_⟩ <;> simp only [Prod.mk.injEq, Prod.fst, Prod.snd] <;> omega
  · rw [show cellStep a b alo blo best p = best from by simp [cellStep, hk]]
    exact hbest

/-- The left extension stays inside the window. -/
theorem extLeft_le (a b : List Char) (alo blo : Nat) :
    ∀ f i j, extLeft a b alo blo i j f ≤ i - alo ∧ extLeft a b alo blo i j f ≤ j - blo := by
  intro f
  induction f with
  | zero => intro i j; simp [extLeft]
  | succ f ih =>
    intro i j
    unfold extLeft
    by_cases hc : alo < i ∧ blo < j
    · rw [if_pos (by simp [hc.1, hc.2])]
      cases a.get? (i - 1) <;> cases b.get? (j - 1) <;> simp only
      any_goals omega
      split
      · have := ih (i - 1) (j - 1); omega
      · omega
    · rw [if_neg (by intro h; simp only [Bool.and_eq_true, decide_eq_true_eq] at h; exact hc h)]
      omega

/-- The right extension stays inside the window. -/
theorem extRight_le (a b : List Char) (ahi bhi : Nat) :
    ∀ f i j, extRight a b ahi bhi i j f ≤ ahi - i ∧ extRight a b ahi bhi i j f ≤ bhi - j := by
  intro f
  induction f with
  | zero => intro i j; simp [extRight]
  | succ f ih =>
    intro i j
    unfold extRight
    by_cases hc : i < ahi ∧ j < bhi
    · rw [if_pos (by simp [hc.1, hc.2])]
      cases a.get? i <;> cases b.get? j <;> simp only
      any_goals omega
      split
      · have := ih (i + 1) (j + 1); omega
      · omega
    · rw [if_neg (by intro h; simp only [Bool.and_eq_true, decide_eq_true_eq] at h; exact hc h)]
      omega

/-- The left extension phase preserves window bounds. -/
theorem applyExtLeft_bounds (a b : List Char) (alo blo ahi bhi : Nat)
    (t : Nat × Nat × Nat)
    (h : alo ≤ t.1 ∧ t.1 + t.2.2 ≤ ahi ∧ blo ≤ t.2.1 ∧ t.2.1 + t.2.2 ≤ bhi) :
    alo ≤ (applyExtLeft a b alo blo t).1 ∧
    (applyExtLeft a b alo blo t).1 + (applyExtLeft a b alo blo t).2.2 ≤ ahi ∧
    blo ≤ (applyExtLeft a b alo blo t).2.1 ∧
    (applyExtLeft a b alo blo t).2.1 + (applyExtLeft a b alo blo t).2.2 ≤ bhi := by
  have hL := extLeft_le a b alo blo t.1 t.1 t.2.1
  unfold applyExtLeft
  refine ⟨?_, ?_, ?_, ?_⟩ <;> simp only [Prod.mk.injEq, Prod.fst, Prod.snd] <;> omega

/-- The right extension phase preserves window bounds. -/
theorem applyExtRight_bounds (a b : List Char) (alo blo ahi bhi : Nat)
    (t : Nat × Nat × Nat)
    (h : alo ≤ t.1 ∧ t.1 + t.2.2 ≤ ahi ∧ blo ≤ t.2.1 ∧ t.2.1 + t.2.2 ≤ bhi) :
    alo ≤ (applyExtRight a b ahi bhi t).1 ∧
    (applyExtRight a b ahi bhi t).1 + (applyExtRight a b ahi bhi t).2.2 ≤ ahi ∧
    blo ≤ (applyExtRight a b ahi bhi t).2.1 ∧
    (applyExtRight a b ahi bhi t).2.1 + (applyExtRight a b ahi bhi t).2.2 ≤ bhi := by
  have hR := extRight_le a b ahi bhi (ahi - (t.1 + t.2.2)) (t.1 + t.2.2) (t.2.1 + t.2.2)
  unfold applyExtRight
  refine ⟨?_, ?_, ?_, ?_⟩ <;> simp only [Prod.mk.injEq, Prod.fst, Prod.snd] <;> omega

/-- `find_longest_match` returns a block inside the window. -/
theorem findLongestMatch_bounds (a b : List Char) {alo ahi blo bhi : Nat}
    (ha : alo ≤ ahi) (hb : blo ≤ bhi) :
    alo ≤ (findLongestMatch a b alo ahi blo bhi).1 ∧
    (findLongestMatch a b alo ahi blo bhi).1 + (findLongestMatch a b alo ahi blo bhi).2.2 ≤ ahi ∧
    blo ≤ (findLongestMatch a b alo ahi blo bhi).2.1 ∧
    (findLongestMatch a b alo ahi blo bhi).2.1 + (findLongestMatch a b alo ahi blo bhi).2.2 ≤ bhi := by
  have hd := dpBest_bounds a b ha hb
  have h1 := applyExtLeft_bounds a b alo blo ahi bhi (dpBest a b alo ahi blo bhi) hd
  have h2 := applyExtRight_bounds a b alo blo ahi bhi
    (applyExtLeft a b alo blo (dpBest a b alo ahi blo bhi)) h1
  unfold findLongestMatch
  exact h2

/-- An empty window contributes no matches, whatever the fuel. -/
theorem matchSumF_empty (a b : List Char) {alo ahi blo bhi : Nat}
    (h : ¬(alo < ahi ∧ blo < bhi)) :
    ∀ f, matchSumF a b f alo ahi blo bhi = 0 := by
  intro f
  cases f with
  | zero => rfl
  | succ f =>
    unfold matchSumF
    rw [if_neg (by intro hc; simp only [Bool.and_eq_true, decide_eq_true_eq] at hc; exact h hc)]

/-- The total matched size fits in both windows. -/
theorem matchSumF_le (a b : List Char) :
    ∀ f alo ahi blo bhi, matchSumF a b f alo ahi blo bhi ≤ ahi - alo ∧
      matchSumF a b f alo ahi blo bhi ≤ bhi - blo := by
  intro f
  induction f with
  | zero => intro alo ahi blo bhi; simp [matchSumF]
  | succ f ih =>
    intro alo ahi blo bhi
    unfold matchSumF
    by_cases hc : alo < ahi ∧ blo < bhi
    · rw [if_pos (by simp [hc.1, hc.2])]
      have hb := findLongestMatch_bounds a b (le_of_lt hc.1) (le_of_lt hc.2)
      have h1 := ih alo (findLongestMatch a b alo ahi blo bhi).1 blo
        (findLongestMatch a b alo ahi blo bhi).2.1
      have h2 := ih ((findLongestMatch a b alo ahi blo bhi).1 +
          (findLongestMatch a b alo ahi blo bhi).2.2) ahi
        ((findLongestMatch a b alo ahi blo bhi).2.1 +
          (findLongestMatch a b alo ahi blo bhi).2.2) bhi
      split <;> omega
    · rw [if_neg (by intro h; simp only [Bool.and_eq_true, decide_eq_true_eq] at h; exact hc h)]
      omega

/-- `M ≤ len(a)` and `M ≤ len(b)`. -/
theorem matchSum_le (a b : List Char) :
    matchSum a b ≤ a.length ∧ matchSum a b ≤ b.length := by
  have := matchSumF_le a b (a.length + b.length + 1) 0 a.length 0 b.length
  unfold matchSum
  omega

/-! ### Identical sequences match completely

`find_longest_match` on `a = b` with equal windows always returns the
whole window: the dynamic program's best block lies on the diagonal (any
off-diagonal run is dominated by the diagonal run of its smaller index,
which the loops visit first), and the two extension phases then widen a
diagonal block to the whole window. -/

/-- A matching cell of `a` against itself induces a matching diagonal
cell at the smaller index (popularity is a property of the character
value, which is shared). -/
theorem okCell_diag (a : List Char) {i j : Nat} (h : okCell a a i j = true) :
    okCell a a (min i j) (min i j) = true := by
  unfold okCell at h ⊢
  cases hgi : a.get? i with
  | none => rw [hgi] at h; cases a.get? j <;> simp at h
  | some x =>
    cases hgj : a.get? j with
    | none => rw [hgi, hgj] at h; simp at h
    | some y =>
      rw [hgi, hgj] at h
      simp only [Bool.and_eq_true, Bool.not_eq_true', decide_eq_true_eq] at h
      obtain ⟨hxy, hpop⟩ := h
      subst hxy
      rcases Nat.le_total i j with hle | hle
      · rw [min_eq_left hle, hgi]
        simp [hpop]
      · rw [min_eq_right hle, hgj]
        simp [hpop]

/-- Diagonal dominance: on `a = b` with `alo = blo`, the run ending at the
diagonal cell `(min i j, min i j)` is at least the run ending at `(i, j)`
(with the same fuel). -/
theorem runGo_diag_ge (a : List Char) (alo : Nat) :
    ∀ f i j, runGo a a alo alo i j f ≤ runGo a a alo alo (min i j) (min i j) f := by
  intro f
  induction f with
  | zero => intro i j; simp [runGo]
  | succ f ih =>
    intro i j
    by_cases hok : okCell a a i j = true
    · have hokm := okCell_diag a hok
      unfold runGo
      rw [if_pos hok, if_pos hokm]
      by_cases hw : alo < i ∧ alo < j
      · have hm : alo < min i j := by omega
        rw [if_pos (by simp [hw.1, hw.2]), if_pos (by simp [hm])]
        have h := ih (i - 1) (j - 1)
        have hmin : min (i - 1) (j - 1) = min i j - 1 := by omega
        rw [hmin] at h
        omega
      · rw [if_neg (by intro h; simp only [Bool.and_eq_true, decide_eq_true_eq] at h; exact hw h)]
        split <;> omega
    · unfold runGo
      rw [if_neg hok]
      omega

/-- Diagonal dominance at the `runEnd` level (`alo = blo` makes the fuels
agree). -/
theorem runEnd_diag_ge (a : List Char) (alo : Nat) (i j : Nat) :
    runEnd a a alo alo i j ≤ runEnd a a alo alo (min i j) (min i j) := by
  unfold runEnd
  have hf : min (i + 1 - alo) (j + 1 - alo) = min i j + 1 - alo := by omega
  rw [hf]
  have := runGo_diag_ge a alo (min i j + 1 - alo) i j
  simpa using this

/-- Folding over a `flatMap` is the nested fold. -/
theorem foldl_flatMap {α β γ : Type} (g : γ → List β) (f : α → β → α) :
    ∀ (l : List γ) (init : α),
      (l.flatMap g).foldl f init = l.foldl (fun acc x => (g x).foldl f acc) init
  | [], _ => rfl
  | x :: l, init => by
    rw [List.flatMap_cons, List.foldl_append, List.foldl_cons]
    exact foldl_flatMap g f l ((g x).foldl f init)

/-- Column invariant of the diagonal argument: folding the cells of row
`i` (columns `jstart, jstart+1, …`) keeps the best block diagonal, keeps
it at least as large as every earlier diagonal run, and records the
diagonal run of row `i` once the diagonal column has been passed. -/
theorem colfold_inv (a : List Char) (alo : Nat) (i : Nat) :
    ∀ (m jstart : Nat) (best : Nat × Nat × Nat),
      alo ≤ jstart →
      best.1 = best.2.1 →
      (∀ d, alo ≤ d → d < i → runEnd a a alo alo d d ≤ best.2.2) →
      (i < jstart → runEnd a a alo alo i i ≤ best.2.2) →
      ((List.range' jstart m).foldl (fun acc j => cellStep a a alo alo acc (i, j)) best).1 =
        ((List.range' jstart m).foldl (fun acc j => cellStep a a alo alo acc (i, j)) best).2.1 ∧
      (∀ d, alo ≤ d → d < i →
        runEnd a a alo alo d d ≤
          ((List.range' jstart m).foldl (fun acc j => cellStep a a alo alo acc (i, j)) best).2.2) ∧
      (i < jstart + m →
        runEnd a a alo alo i i ≤
          ((List.range' jstart m).foldl (fun acc j => cellStep a a alo alo acc (i, j)) best).2.2) := by
  intro m
  induction m with
  | zero =>
    intro jstart best _ hdiag h2 h3
    exact ⟨hdiag, h2, fun h => h3 (by omega)⟩
  | succ m ih =>
    intro jstart best hj hdiag h2 h3
    rw [List.range'_succ, List.foldl_cons]
    by_cases hk : best.2.2 < runEnd a a alo alo i jstart
    · -- the cell strictly improves the best: it must be the diagonal cell
      have hii : i = jstart := by
        by_contra hne
        rcases Nat.lt_or_ge jstart i with hlt | hge
        · -- below the diagonal: dominated by an earlier diagonal run
          have hdom := runEnd_diag_ge a alo i jstart
          rw [min_eq_right (by omega)] at hdom
          have := h2 jstart hj hlt
          omega
        · -- above the diagonal: dominated by this row's diagonal run
          have hlt : i < jstart := by omega
          have hdom := runEnd_diag_ge a alo i jstart
          rw [min_eq_left (by omega)] at hdom
          have := h3 hlt
          omega
      subst hii
      have hstep : cellStep a a alo alo best (i, i) =
          (i + 1 - runEnd a a alo alo i i, i + 1 - runEnd a a alo alo i i,
            runEnd a a alo alo i i) := by
        simp [cellStep, hk]
      rw [hstep]
      have hres := ih (i + 1)
        (i + 1 - runEnd a a alo alo i i, i + 1 - runEnd a a alo alo i i,
          runEnd a a alo alo i i)
        (by omega) rfl
        (fun d hd1 hd2 => by
          have := h2 d hd1 hd2
          simp only at *
          omega)
        (fun _ => by simp only at *; omega)
      exact ⟨hres.1, hres.2.1, fun h => hres.2.2 (by omega)⟩
    · have hstep : cellStep a a alo alo best (i, jstart) = best := by
        simp [cellStep, hk]
      rw [hstep]
      have hres := ih (jstart + 1) best (by omega) hdiag h2
        (fun hlt => by
          rcases Nat.lt_or_ge i jstart with hlt2 | hge
          · exact h3 hlt2
          · have : i = jstart := by omega
            subst this
            omega)
      exact ⟨hres.1, hres.2.1, fun h => hres.2.2 (by omega)⟩

/-- Row invariant of the diagonal argument: folding full rows keeps the
best block diagonal and dominates all earlier diagonal runs. -/
theorem rowfold_inv (a : List Char) (alo ahi : Nat) :
    ∀ (n start : Nat) (best : Nat × Nat × Nat),
      alo ≤ start → start + n ≤ ahi →
      best.1 = best.2.1 →
      (∀ d, alo ≤ d → d < start → runEnd a a alo alo d d ≤ best.2.2) →
      ((List.range' start n).foldl
          (fun acc i => (List.range' alo (ahi - alo)).foldl
            (fun acc2 j => cellStep a a alo alo acc2 (i, j)) acc) best).1 =
        ((List.range' start n).foldl
          (fun acc i => (List.range' alo (ahi - alo)).foldl
            (fun acc2 j => cellStep a a alo alo acc2 (i, j)) acc) best).2.1 := by
  intro n
  induction n with
  | zero => intro start best _ _ hdiag _; exact hdiag
  | succ n ih =>
    intro start best hs hn hdiag h2
    rw [List.range'_succ, List.foldl_cons]
    have hcol := colfold_inv a alo start (ahi - alo) alo best (le_refl alo) hdiag h2
      (fun h => absurd h (by omega))
    refine ih (start + 1) _ (by omega) (by omega) hcol.1 ?_
    intro d hd1 hd2
    rcases Nat.lt_or_ge d start with hlt | hge
    · exact hcol.2.1 d hd1 hlt
    · have : d = start := by omega
      subst this
      exact hcol.2.2 (by omega)

/-- On `a` against itself with equal windows, the dynamic program's best
block is diagonal. -/
theorem dpBest_diag (a : List Char) (alo ahi : Nat) :
    (dpBest a a alo ahi alo ahi).1 = (dpBest a a alo ahi alo ahi).2.1 := by
  unfold dpBest cells
  rw [foldl_flatMap]
  simp only [List.foldl_map]
  by_cases h : alo ≤ ahi
  · exact rowfold_inv a alo ahi (ahi - alo) alo (alo, alo, 0) (le_refl _) (by omega) rfl
      (fun d hd1 hd2 => by omega)
  · have : ahi - alo = 0 := by omega
    rw [this]
    rfl

/-- The left extension on the diagonal extends as far as the window and
the fuel allow. -/
theorem extLeft_diag (a : List Char) (alo : Nat) :
    ∀ f i, i ≤ a.length → extLeft a a alo alo i i f = min (i - alo) f := by
  intro f
  induction f with
  | zero => intro i _; simp [extLeft]
  | succ f ih =>
    intro i hi
    unfold extLeft
    by_cases hlo : alo < i
    · rw [if_pos (by simp [hlo])]
      cases hg : a.get? (i - 1) with
      | none =>
        rw [List.get?_eq_none] at hg
        omega
      | some c =>
        simp only [eq_self_iff_true, if_true]
        rw [ih (i - 1) (by omega)]
        omega
    · rw [if_neg (by intro h; simp only [Bool.and_eq_true, decide_eq_true_eq] at h; exact hlo h.1)]
      omega

/-- The right extension on the diagonal extends as far as the window and
the fuel allow. -/
theorem extRight_diag (a : List Char) (ahi : Nat) (hlen : ahi ≤ a.length) :
    ∀ f p, extRight a a ahi ahi p p f = min (ahi - p) f := by
  intro f
  induction f with
  | zero => intro p; simp [extRight]
  | succ f ih =>
    intro p
    unfold extRight
    by_cases hp : p < ahi
    · rw [if_pos (by simp [hp])]
      cases hg : a.get? p with
      | none =>
        rw [List.get?_eq_none] at hg
        omega
      | some c =>
        simp only [eq_self_iff_true, if_true]
        rw [ih (p + 1)]
        omega
    · rw [if_neg (by intro h; simp only [Bool.and_eq_true, decide_eq_true_eq] at h; exact hp h.1)]
      omega

/-- The left extension phase turns a diagonal block (of `a` against
itself) into one starting at the window edge. -/
theorem applyExtLeft_diag (a : List Char) (alo : Nat) (t : Nat × Nat × Nat)
    (hdg : t.1 = t.2.1) (hlo : alo ≤ t.1) (hlen : t.1 ≤ a.length) :
    applyExtLeft a a alo alo t = (alo, alo, t.2.2 + (t.1 - alo)) := by
  unfold applyExtLeft
  rw [← hdg, extLeft_diag a alo t.1 t.1 hlen]
  have h2 : min (t.1 - alo) t.1 = t.1 - alo := by omega
  rw [h2]
  refine Prod.ext ?_ (Prod.ext ?_ ?_) <;> simp only [Prod.mk.injEq, Prod.fst, Prod.snd] <;> omega

/-- `find_longest_match` of a window of `a` against itself returns the
whole window. -/
theorem findLongestMatch_self (a : List Char) {alo ahi : Nat}
    (h1 : alo ≤ ahi) (h2 : ahi ≤ a.length) :
    findLongestMatch a a alo ahi alo ahi = (alo, alo, ahi - alo) := by
  have hd := dpBest_diag a alo ahi
  have hb := dpBest_bounds a a h1 h1
  unfold findLongestMatch
  rw [applyExtLeft_diag a alo (dpBest a a alo ahi alo ahi) hd (by omega) (by omega)]
  unfold applyExtRight
  simp only [Prod.fst, Prod.snd]
  have hp : alo + ((dpBest a a alo ahi alo ahi).2.2 +
      ((dpBest a a alo ahi alo ahi).1 - alo)) =
      (dpBest a a alo ahi alo ahi).1 + (dpBest a a alo ahi alo ahi).2.2 := by omega
  rw [hp, extRight_diag a ahi h2]
  refine Prod.ext rfl (Prod.ext rfl ?_)
  simp only [Prod.mk.injEq, Prod.fst, Prod.snd]
  omega

/-- A window of `a` against itself matches completely. -/
theorem matchSumF_self (a : List Char) {f alo ahi : Nat}
    (hf : 1 ≤ f) (h1 : alo ≤ ahi) (h2 : ahi ≤ a.length) :
    matchSumF a a f alo ahi alo ahi = ahi - alo := by
  cases f with
  | zero => omega
  | succ f =>
    unfold matchSumF
    by_cases hlt : alo < ahi
    · rw [if_pos (by simp [hlt]), findLongestMatch_self a h1 h2]
      rw [if_neg (by simp only; omega)]
      simp only
      rw [matchSumF_empty a a (by omega) f, matchSumF_empty a a (by omega) f]
      omega
    · rw [if_neg (by intro h; simp only [Bool.and_eq_true, decide_eq_true_eq] at h; exact hlt h.1)]
      omega

/-- `M = len(a)` for `a` against itself. -/
theorem matchSum_self (a : List Char) : matchSum a a = a.length := by
  unfold matchSum
  rw [matchSumF_self a (by omega) (by omega) (le_refl _)]
  omega

/-- `ratio(a, a) = 1`. -/
theorem ratioQ_self (a : List Char) : ratioQ a a = 1 := by
  unfold ratioQ
  by_cases h : a.length + a.length = 0
  · rw [if_pos h]
  · rw [if_neg h, matchSum_self]
    have hne : (a.length : ℚ) ≠ 0 := by
      exact_mod_cast fun hc => h (by omega)
    field_simp
    ring

/-- `0 ≤ ratio(a, b)`. -/
theorem ratioQ_nonneg (a b : List Char) : 0 ≤ ratioQ a b := by
  unfold ratioQ
  split
  · norm_num
  · rename_i h
    have hpos : (0 : ℚ) < (a.length : ℚ) + (b.length : ℚ) := by
      have : 0 < a.length + b.length := Nat.pos_of_ne_zero h
      exact_mod_cast this
    apply div_nonneg _ (le_of_lt hpos)
    positivity

/-- `ratio(a, b) ≤ 1`. -/
theorem ratioQ_le_one (a b : List Char) : ratioQ a b ≤ 1 := by
  unfold ratioQ
  split
  · norm_num
  · rename_i h
    have hm := matchSum_le a b
    have hpos : (0 : ℚ) < (a.length : ℚ) + (b.length : ℚ) := by
      have : 0 < a.length + b.length := Nat.pos_of_ne_zero h
      exact_mod_cast this
    rw [div_le_one hpos]
    have h1 : (matchSum a b : ℚ) ≤ (a.length : ℚ) := by exact_mod_cast hm.1
    have h2 : (matchSum a b : ℚ) ≤ (b.length : ℚ) := by exact_mod_cast hm.2
    linarith

/-- Evaluation helper: `ratio` as a closed rational from the lengths and
the matched size. -/
theorem ratioQ_eval {a b : List Char} {la lb m : Nat}
    (ha : a.length = la) (hb : b.length = lb) (hm : matchSum a b = m)
    (h0 : ¬(la + lb = 0)) :
    ratioQ a b = 2 * (m : ℚ) / ((la : ℚ) + (lb : ℚ)) := by
  unfold ratioQ
  rw [ha, hb, hm, if_neg h0]

/-! ## Lemmas about `calculate_similarity` and `entryScore` -/

/-- A text is perfectly similar to itself. -/
theorem calculate_similarity_self (t : List Char) : calculate_similarity t t = 1 := by
  unfold calculate_similarity
  rw [ratioQ_self, ratioQ_self]
  norm_num

/-- Similarity is at most `1`. -/
theorem calculate_similarity_le_one (t1 t2 : List Char) :
    calculate_similarity t1 t2 ≤ 1 := by
  unfold calculate_similarity
  have h1 := ratioQ_le_one (normalize_text t1) (normalize_text t2)
  have h2 := ratioQ_le_one (expand_with_synonyms (normalize_text t1))
    (expand_with_synonyms (normalize_text t2))
  have h3 := ratioQ_nonneg (normalize_text t1) (normalize_text t2)
  have h4 := ratioQ_nonneg (expand_with_synonyms (normalize_text t1))
    (expand_with_synonyms (normalize_text t2))
  norm_num
  linarith

/-- Similarity is nonnegative. -/
theorem calculate_similarity_nonneg (t1 t2 : List Char) :
    0 ≤ calculate_similarity t1 t2 := by
  unfold calculate_similarity
  have h3 := ratioQ_nonneg (normalize_text t1) (normalize_text t2)
  have h4 := ratioQ_nonneg (expand_with_synonyms (normalize_text t1))
    (expand_with_synonyms (normalize_text t2))
  norm_num
  linarith

/-- Every per-entry score of `search_faqs` is at most `1` (the boost is
capped). -/
theorem entryScore_le_one (query intent : List Char) (faq : FAQ) :
    entryScore query intent faq ≤ 1 := by
  unfold entryScore
  have h1 := calculate_similarity_le_one query faq.question
  have h2 := calculate_similarity_le_one query faq.answer
  have h3 := calculate_similarity_nonneg query faq.answer
  cases faq.category with
  | none => simp only; rw [max_le_iff]; constructor <;> nlinarith
  | some cat =>
    simp only
    split
    · exact min_le_right _ _
    · rw [max_le_iff]; constructor <;> nlinarith

/-- An entry whose question text equals the query scores exactly `1`
(boosted or not). -/
theorem entryScore_self (query intent : List Char) (faq : FAQ)
    (h : faq.question = query) :
    entryScore query intent faq = 1 := by
  unfold entryScore
  rw [h, calculate_similarity_self]
  have h2 := calculate_similarity_le_one query faq.answer
  have h3 := calculate_similarity_nonneg query faq.answer
  have hmax : max 1 (calculate_similarity query faq.answer * 0.5) = 1 := by
    rw [max_eq_left]; nlinarith
  cases faq.category with
  | none => simpa using hmax
  | some cat =>
    simp only
    rw [hmax]
    split
    · norm_num
    · rfl

/-! ## Lemmas about the stable descending sort -/

/-- Membership in an insertion. -/
theorem mem_insertDesc {z x : FAQ × ℚ} :
    ∀ {l : List (FAQ × ℚ)}, z ∈ insertDesc x l ↔ z = x ∨ z ∈ l := by
  intro l
  induction l with
  | nil => simp [insertDesc]
  | cons y ys ih =>
    unfold insertDesc
    split
    · simp
    · simp only [List.mem_cons, ih]
      tauto

/-- Membership is preserved by the sort. -/
theorem mem_sortDesc {z : FAQ × ℚ} :
    ∀ {l : List (FAQ × ℚ)}, z ∈ sortDesc l ↔ z ∈ l := by
  intro l
  induction l with
  | nil => simp [sortDesc]
  | cons y ys ih =>
    unfold sortDesc
    rw [mem_insertDesc]
    simp [ih]

/-- Inserting into a descending-sorted list keeps it descending. -/
theorem insertDesc_pairwise {x : FAQ × ℚ} :
    ∀ {l : List (FAQ × ℚ)}, l.Pairwise (fun p q => q.2 ≤ p.2) →
      (insertDesc x l).Pairwise (fun p q => q.2 ≤ p.2) := by
  intro l
  induction l with
  | nil => intro _; simp [insertDesc]
  | cons y ys ih =>
    intro hp
    rw [List.pairwise_cons] at hp
    unfold insertDesc
    split
    · rename_i hyx
      rw [List.pairwise_cons]
      constructor
      · intro z hz
        rcases List.mem_cons.mp hz with rfl | hz
        · exact hyx
        · exact le_trans (hp.1 z hz) hyx
      · rw [List.pairwise_cons]
        exact hp
    · rename_i hyx
      rw [List.pairwise_cons]
      constructor
      · intro z hz
        rcases mem_insertDesc.mp hz with rfl | hz
        · linarith [lt_of_not_le hyx]
        · exact hp.1 z hz
      · exact ih hp.2

/-- The sort output is descending. -/
theorem sortDesc_pairwise :
    ∀ (l : List (FAQ × ℚ)), (sortDesc l).Pairwise (fun p q => q.2 ≤ p.2)
  | [] => List.Pairwise.nil
  | _ :: xs => insertDesc_pairwise (sortDesc_pairwise xs)

/-! ## `detect_intent` agrees with its `Nat`-scored companion -/

/-- Decode the `Nat` score of `detect_intent_nat` into the rational score
of `detect_intent`. -/
def q27 (n : Nat) : ℚ := if n = 2 then 1 else if n = 1 then 0.9 else 0

/-- `q27` is an order embedding on the reachable scores. -/
theorem q27_lt_iff {m n : Nat} (hm : m ≤ 2) (hn : n ≤ 2) :
    q27 m < q27 n ↔ m < n := by
  interval_cases m <;> interval_cases n <;> simp [q27] <;> norm_num

/-- One pattern group preserves the simulation between the rational and
the `Nat`-scored folds. -/
theorem inner_sim (ql intent : List Char) :
    ∀ (pats : List (List Char)) (bq : List Char × ℚ) (bn : List Char × Nat),
      bq.1 = bn.1 → bq.2 = q27 bn.2 → bn.2 ≤ 2 →
      (pats.foldl
          (fun best pat =>
            if patHit ql pat then
              if best.2 < (if patBoost ql pat then (1 : ℚ) else 0.9) then
                (intent, if patBoost ql pat then (1 : ℚ) else 0.9)
              else best
            else best) bq).1 =
        (pats.foldl
          (fun best pat =>
            if patHit ql pat then
              if best.2 < (if patBoost ql pat then 2 else 1) then
                (intent, if patBoost ql pat then 2 else 1)
              else best
            else best) bn).1 ∧
      (pats.foldl
          (fun best pat =>
            if patHit ql pat then
              if best.2 < (if patBoost ql pat then (1 : ℚ) else 0.9) then
                (intent, if patBoost ql pat then (1 : ℚ) else 0.9)
              else best
            else best) bq).2 =
        q27 (pats.foldl
          (fun best pat =>
            if patHit ql pat then
              if best.2 < (if patBoost ql pat then 2 else 1) then
                (intent, if patBoost ql pat then 2 else 1)
              else best
            else best) bn).2 ∧
      (pats.foldl
          (fun best pat =>
            if patHit ql pat then
              if best.2 < (if patBoost ql pat then 2 else 1) then
                (intent, if patBoost ql pat then 2 else 1)
              else best
            else best) bn).2 ≤ 2 := by
  intro pats
  induction pats with
  | nil => intro bq bn h1 h2 h3; exact ⟨h1, h2, h3⟩
  | cons p ps ih =>
    intro bq bn h1 h2 h3
    rw [List.foldl_cons, List.foldl_cons]
    by_cases hhit : patHit ql p = true
    · rw [if_pos hhit, if_pos hhit]
      have hsn : (if patBoost ql p then (1 : ℚ) else 0.9) =
          q27 (if patBoost ql p then 2 else 1) := by
        split <;> simp [q27]
      have hsb : (if patBoost ql p then 2 else 1) ≤ 2 := by split <;> omega
      by_cases hlt : bn.2 < (if patBoost ql p then 2 else 1)
      · rw [if_pos hlt]
        rw [h2, hsn, if_pos ((q27_lt_iff h3 hsb).mpr hlt)]
        exact ih (intent, q27 (if patBoost ql p then 2 else 1))
          (intent, if patBoost ql p then 2 else 1) rfl rfl hsb
      · rw [if_neg hlt]
        rw [h2, hsn, if_neg (fun hc => hlt ((q27_lt_iff h3 hsb).mp hc))]
        exact ih bq bn h1 h2 h3
    · rw [if_neg hhit, if_neg hhit]
      exact ih bq bn h1 h2 h3

/-- `detect_intent` and `detect_intent_nat` track each other. -/
theorem detect_intent_eq_nat (query : List Char) :
    detect_intent query =
      ((detect_intent_nat query).1, q27 (detect_intent_nat query).2) := by
  unfold detect_intent detect_intent_nat
  simp only
  suffices h : ∀ (l : List (List Char × List (List Char)))
      (bq : List Char × ℚ) (bn : List Char × Nat),
      bq.1 = bn.1 → bq.2 = q27 bn.2 → bn.2 ≤ 2 →
      (l.foldl
          (fun best ip =>
            ip.2.foldl
              (fun best pat =>
                if patHit (lowerL query) pat then
                  if best.2 < (if patBoost (lowerL query) pat then (1 : ℚ) else 0.9) then
                    (ip.1, if patBoost (lowerL query) pat then (1 : ℚ) else 0.9)
                  else best
                else best) best) bq) =
        ((l.foldl
          (fun best ip =>
            ip.2.foldl
              (fun best pat =>
                if patHit (lowerL query) pat then
                  if best.2 < (if patBoost (lowerL query) pat then 2 else 1) then
                    (ip.1, if patBoost (lowerL query) pat then 2 else 1)
                  else best
                else best) best) bn).1,
          q27 (l.foldl
          (fun best ip =>
            ip.2.foldl
              (fun best pat =>
                if patHit (lowerL query) pat then
                  if best.2 < (if patBoost (lowerL query) pat then 2 else 1) then
                    (ip.1, if patBoost (lowerL query) pat then 2 else 1)
                  else best
                else best) best) bn).2) by
    exact h intent_patterns (("general").toList, 0) (("general").toList, 0) rfl
      (by simp [q27]) (by omega)
  intro l
  induction l with
  | nil =>
    intro bq bn h1 h2 _
    rw [List.foldl_nil, List.foldl_nil]
    exact Prod.ext h1 h2
  | cons ip l ihl =>
    intro bq bn h1 h2 h3
    rw [List.foldl_cons, List.foldl_cons]
    have hstep := inner_sim (lowerL query) ip.1 ip.2 bq bn h1 h2 h3
    exact ihl _ _ hstep.1 hstep.2.1 hstep.2.2

/-- The head of the sorted list dominates every element. -/
theorem sortDesc_head_max {l : List (FAQ × ℚ)} {h : FAQ × ℚ} {t : List (FAQ × ℚ)}
    (he : sortDesc l = h :: t) : ∀ z ∈ l, z.2 ≤ h.2 := by
  intro z hz
  have hzm : z ∈ sortDesc l := mem_sortDesc.mpr hz
  rw [he] at hzm
  rcases List.mem_cons.mp hzm with rfl | hzt
  · exact le_refl _
  · have hp := sortDesc_pairwise l
    rw [he, List.pairwise_cons] at hp
    exact hp.1 z hzt

/-- The sort never loses elements (same length). -/
theorem sortDesc_length : ∀ (l : List (FAQ × ℚ)), (sortDesc l).length = l.length := by
  intro l
  induction l with
  | nil => rfl
  | cons x xs ih =>
    unfold sortDesc
    have : ∀ (m : List (FAQ × ℚ)) (y : FAQ × ℚ), (insertDesc y m).length = m.length + 1 := by
      intro m
      induction m with
      | nil => intro y; rfl
      | cons z zs ihm =>
        intro y
        unfold insertDesc
        split
        · simp
        · simp [ihm]
    rw [this, ih]
    simp

/-! ## Concrete corpora and evaluation lemmas

Small corpora on which the pipeline is evaluated exactly.  List/`Nat`
computations are discharged by `decide` (kernel evaluation); the rational
scores are then assembled by `norm_num`. -/

set_option maxRecDepth 10000

/-- An FAQ whose category matches the detected intent of the query
`"gps"` and whose question is close to (but not equal to) that query. -/
def gpsBoostFAQ : FAQ := ⟨("gpss").toList, [], some (("gps").toList)⟩

/-- An FAQ whose question is exactly the query `"gps"`. -/
def gpsExactFAQ : FAQ := ⟨("gps").toList, [], none⟩

/-- A password-domain FAQ whose answer text equals the registration-domain
query `"account creation"`. -/
def resetFAQ : FAQ := ⟨("reset").toList, ("account creation").toList, none⟩

/-- A maintenance-domain FAQ whose answer text equals the vehicle-domain
query `"truck fix"`. -/
def serviceFAQ : FAQ := ⟨("service").toList, ("truck fix").toList, none⟩

/-- A second vehicle-corpus FAQ for the two-match override scenario. -/
def fleetFAQ : FAQ := ⟨("fleet overview").toList, ("truck fix").toList, none⟩

/-- The detected fine intent of `"gps"` is `gps`. -/
theorem intent_gps : (detect_intent (("gps").toList)).1 = ("gps").toList := by
  rw [detect_intent_eq_nat]
  decide

/-- The detected fine intent of `"account creation"` is `account_setup`. -/
theorem intent_account : (detect_intent (("account creation").toList)).1 =
    ("account_setup").toList := by
  rw [detect_intent_eq_nat]
  decide

/-- The detected fine intent of `"truck fix"` is `general`. -/
theorem intent_truck : (detect_intent (("truck fix").toList)).1 =
    ("general").toList := by
  rw [detect_intent_eq_nat]
  decide

/-- `calculate_similarity "gps" "gpss" = 6/7`. -/
theorem calc_gps_gpss :
    calculate_similarity (("gps").toList) (("gpss").toList) = 6/7 := by
  unfold calculate_similarity
  rw [show normalize_text (("gps").toList) = ("gps").toList from by decide,
    show normalize_text (("gpss").toList) = ("gpss").toList from by decide,
    show expand_with_synonyms (("gps").toList) = ("gps").toList from by decide,
    show expand_with_synonyms (("gpss").toList) = ("gpss").toList from by decide,
    ratioQ_eval (show (("gps").toList).length = 3 from by decide)
      (show (("gpss").toList).length = 4 from by decide)
      (show matchSum (("gps").toList) (("gpss").toList) = 3 from by decide)
      (by omega)]
  norm_num

/-- `calculate_similarity "gps" "" = 0`. -/
theorem calc_gps_empty :
    calculate_similarity (("gps").toList) ([] : List Char) = 0 := by
  unfold calculate_similarity
  rw [show normalize_text (("gps").toList) = ("gps").toList from by decide,
    show normalize_text ([] : List Char) = [] from by decide,
    show expand_with_synonyms (("gps").toList) = ("gps").toList from by decide,
    show expand_with_synonyms ([] : List Char) = [] from by decide,
    ratioQ_eval (show (("gps").toList).length = 3 from by decide)
      (show ([] : List Char).length = 0 from by decide)
      (show matchSum (("gps").toList) ([] : List Char) = 0 from by decide)
      (by omega)]
  norm_num

/-- `calculate_similarity "account creation" "reset" = 31/140`. -/
theorem calc_account_reset :
    calculate_similarity (("account creation").toList) (("reset").toList) = 31/140 := by
  unfold calculate_similarity
  rw [show normalize_text (("account creation").toList) = ("account creation").toList from by decide,
    show normalize_text (("reset").toList) = ("reset").toList from by decide,
    show expand_with_synonyms (("account creation").toList) =
      ("account creation profile user account login account").toList from by decide,
    show expand_with_synonyms (("reset").toList) = ("reset").toList from by decide,
    ratioQ_eval (show (("account creation").toList).length = 16 from by decide)
      (show (("reset").toList).length = 5 from by decide)
      (show matchSum (("account creation").toList) (("reset").toList) = 3 from by decide)
      (by omega),
    ratioQ_eval
      (show (("account creation profile user account login account").toList).length = 51 from by decide)
      (show (("reset").toList).length = 5 from by decide)
      (show matchSum (("account creation profile user account login account").toList)
        (("reset").toList) = 5 from by decide)
      (by omega)]
  norm_num

/-- `calculate_similarity "truck fix" "service" = 1/4`. -/
theorem calc_truck_service :
    calculate_similarity (("truck fix").toList) (("service").toList) = 1/4 := by
  unfold calculate_similarity
  rw [show normalize_text (("truck fix").toList) = ("truck fix").toList from by decide,
    show normalize_text (("service").toList) = ("service").toList from by decide,
    show expand_with_synonyms (("truck fix").toList) = ("truck fix").toList from by decide,
    show expand_with_synonyms (("service").toList) = ("service").toList from by decide,
    ratioQ_eval (show (("truck fix").toList).length = 9 from by decide)
      (show (("service").toList).length = 7 from by decide)
      (show matchSum (("truck fix").toList) (("service").toList) = 2 from by decide)
      (by omega)]
  norm_num

/-- `calculate_similarity "truck fix" "fleet overview" = 6/23`. -/
theorem calc_truck_fleet :
    calculate_similarity (("truck fix").toList) (("fleet overview").toList) = 6/23 := by
  unfold calculate_similarity
  rw [show normalize_text (("truck fix").toList) = ("truck fix").toList from by decide,
    show normalize_text (("fleet overview").toList) = ("fleet overview").toList from by decide,
    show expand_with_synonyms (("truck fix").toList) = ("truck fix").toList from by decide,
    show expand_with_synonyms (("fleet overview").toList) = ("fleet overview").toList from by decide,
    ratioQ_eval (show (("truck fix").toList).length = 9 from by decide)
      (show (("fleet overview").toList).length = 14 from by decide)
      (show matchSum (("truck fix").toList) (("fleet overview").toList) = 3 from by decide)
      (by omega)]
  norm_num

/-- Evaluation helper: `filterMap` step for an entry that passes the
threshold. -/
theorem filterMap_score_keep (q intent : List Char) (th : ℚ) (f : FAQ) (l : List FAQ)
    (s : ℚ) (hs : entryScore q intent f = s) (hth : th ≤ s) :
    (f :: l).filterMap (fun faq =>
        if th ≤ entryScore q intent faq then some (faq, entryScore q intent faq) else none) =
      (f, s) :: l.filterMap (fun faq =>
        if th ≤ entryScore q intent faq then some (faq, entryScore q intent faq) else none) := by
  have h : (if th ≤ entryScore q intent f then some (f, entryScore q intent f) else none) =
      some (f, s) := by
    rw [hs, if_pos hth]
  rw [List.filterMap_cons, h]

/-- `entryScore "gps" "gps" gpsBoostFAQ = 1`: the `6/7` base score is
boosted by `1.2` and capped at `1`. -/
theorem score_gpsBoost :
    entryScore (("gps").toList) (("gps").toList) gpsBoostFAQ = 1 := by
  simp only [entryScore, gpsBoostFAQ]
  rw [calc_gps_gpss, calc_gps_empty]
  rw [if_pos (show (isSubstr (lowerL (("gps").toList)) (lowerL (("gps").toList)) ||
      isSubstr (("gps").toList) (lowerL (("gps").toList))) = true from by decide)]
  rw [show max (6/7 : ℚ) (0 * 0.5) = 6/7 from by rw [max_eq_left (by norm_num)]]
  rw [min_eq_right (by norm_num)]

/-- `entryScore "gps" "gps" gpsExactFAQ = 1`: exact question match. -/
theorem score_gpsExact :
    entryScore (("gps").toList) (("gps").toList) gpsExactFAQ = 1 :=
  entryScore_self _ _ _ rfl

/-- `entryScore "account creation" "account_setup" resetFAQ = 1/2`
(the answer carries the weight). -/
theorem score_reset :
    entryScore (("account creation").toList) (("account_setup").toList) resetFAQ = 1/2 := by
  simp only [entryScore, resetFAQ]
  rw [calc_account_reset, calculate_similarity_self]
  rw [max_eq_right (by norm_num)]
  norm_num

/-- `entryScore "truck fix" "general" serviceFAQ = 1/2`. -/
theorem score_service :
    entryScore (("truck fix").toList) (("general").toList) serviceFAQ = 1/2 := by
  simp only [entryScore, serviceFAQ]
  rw [calc_truck_service, calculate_similarity_self]
  rw [max_eq_right (by norm_num)]
  norm_num

/-- `entryScore "truck fix" "general" fleetFAQ = 1/2`. -/
theorem score_fleet :
    entryScore (("truck fix").toList) (("general").toList) fleetFAQ = 1/2 := by
  simp only [entryScore, fleetFAQ]
  rw [calc_truck_fleet, calculate_similarity_self]
  rw [max_eq_right (by norm_num)]
  norm_num

/-- The search on the one-entry boosted corpus. -/
theorem search_gps_single :
    search_faqs (("gps").toList) [gpsBoostFAQ] 5 (0.3 : ℚ) = [(gpsBoostFAQ, 1)] := by
  simp only [search_faqs]
  rw [if_neg (show ¬((stripL (("gps").toList)).isEmpty = true) from by decide), intent_gps]
  rw [filterMap_score_keep _ _ _ _ _ _ score_gpsBoost (by norm_num), List.filterMap_nil]
  rfl

/-- The search on the two-entry `gps` corpus: both entries score `1`, the
boosted (non-exact) entry stays first by stability. -/
theorem search_gps_pair :
    search_faqs (("gps").toList) [gpsBoostFAQ, gpsExactFAQ] 5 (0.3 : ℚ) =
      [(gpsBoostFAQ, 1), (gpsExactFAQ, 1)] := by
  simp only [search_faqs]
  rw [if_neg (show ¬((stripL (("gps").toList)).isEmpty = true) from by decide), intent_gps]
  rw [filterMap_score_keep _ _ _ _ _ _ score_gpsBoost (by norm_num),
    filterMap_score_keep _ _ _ _ _ _ score_gpsExact (by norm_num), List.filterMap_nil]
  have h2 : insertDesc (gpsExactFAQ, (1 : ℚ)) [] = [(gpsExactFAQ, 1)] := rfl
  have h1 : insertDesc (gpsBoostFAQ, (1 : ℚ)) [(gpsExactFAQ, 1)] =
      [(gpsBoostFAQ, 1), (gpsExactFAQ, 1)] := by
    unfold insertDesc
    rw [if_pos (show ((gpsExactFAQ, (1 : ℚ))).2 ≤ ((gpsBoostFAQ, (1 : ℚ))).2 from le_refl 1)]
  show (insertDesc (gpsBoostFAQ, 1) (insertDesc (gpsExactFAQ, 1) [])).take 5 = _
  rw [h2, h1]
  rfl

/-- The search on the one-entry reset corpus. -/
theorem search_account :
    search_faqs (("account creation").toList) [resetFAQ] 5 (0.3 : ℚ) = [(resetFAQ, 1/2)] := by
  simp only [search_faqs]
  rw [if_neg (show ¬((stripL (("account creation").toList)).isEmpty = true) from by decide),
    intent_account]
  rw [filterMap_score_keep _ _ _ _ _ _ score_reset (by norm_num), List.filterMap_nil]
  rfl

/-- The search on the one-entry service corpus. -/
theorem search_truck_single :
    search_faqs (("truck fix").toList) [serviceFAQ] 5 (0.3 : ℚ) = [(serviceFAQ, 1/2)] := by
  simp only [search_faqs]
  rw [if_neg (show ¬((stripL (("truck fix").toList)).isEmpty = true) from by decide),
    intent_truck]
  rw [filterMap_score_keep _ _ _ _ _ _ score_service (by norm_num), List.filterMap_nil]
  rfl

/-- The search on the two-entry vehicle corpus: equal scores, stable
order. -/
theorem search_truck_pair :
    search_faqs (("truck fix").toList) [serviceFAQ, fleetFAQ] 5 (0.3 : ℚ) =
      [(serviceFAQ, 1/2), (fleetFAQ, 1/2)] := by
  simp only [search_faqs]
  rw [if_neg (show ¬((stripL (("truck fix").toList)).isEmpty = true) from by decide),
    intent_truck]
  rw [filterMap_score_keep _ _ _ _ _ _ score_service (by norm_num),
    filterMap_score_keep _ _ _ _ _ _ score_fleet (by norm_num), List.filterMap_nil]
  have h2 : insertDesc (fleetFAQ, (1 : ℚ)/2) [] = [(fleetFAQ, 1/2)] := rfl
  have h1 : insertDesc (serviceFAQ, (1 : ℚ)/2) [(fleetFAQ, 1/2)] =
      [(serviceFAQ, 1/2), (fleetFAQ, 1/2)] := by
    unfold insertDesc
    rw [if_pos (show ((fleetFAQ, (1 : ℚ)/2)).2 ≤ ((serviceFAQ, (1 : ℚ)/2)).2 from le_refl _)]
  show (insertDesc (serviceFAQ, 1/2) (insertDesc (fleetFAQ, 1/2) [])).take 5 = _
  rw [h2, h1]
  rfl

/-- `resetFAQ` with its retrieval score attached. -/
def resetSFAQ : SFAQ := ⟨("reset").toList, ("account creation").toList, none, 1/2⟩

/-- `serviceFAQ` with its retrieval score attached. -/
def serviceSFAQ : SFAQ := ⟨("service").toList, ("truck fix").toList, none, 1/2⟩

/-- `fleetFAQ` with its retrieval score attached. -/
def fleetSFAQ : SFAQ := ⟨("fleet overview").toList, ("truck fix").toList, none, 1/2⟩

/-- Evaluation helper: `filterMap` step of the freshness filter for a
fresh entry. -/
theorem filterMap_fresh_keep (p : FAQ × ℚ) (l : List (FAQ × ℚ)) (e : SFAQ)
    (hv : validate_answer_freshness p.1 = true)
    (he : (⟨p.1.question, p.1.answer, p.1.category, p.2⟩ : SFAQ) = e) :
    (p :: l).filterMap (fun p =>
        if validate_answer_freshness p.1 then
          some ⟨p.1.question, p.1.answer, p.1.category, p.2⟩
        else none) =
      e :: l.filterMap (fun p =>
        if validate_answer_freshness p.1 then
          some ⟨p.1.question, p.1.answer, p.1.category, p.2⟩
        else none) := by
  have h : (if validate_answer_freshness p.1 then
      some (⟨p.1.question, p.1.answer, p.1.category, p.2⟩ : SFAQ) else none) = some e := by
    rw [if_pos hv, he]
  rw [List.filterMap_cons, h]

/-- The full retrieval on the reset corpus. -/
theorem ksearch_account :
    keyword_search_faqs (("account creation").toList) [resetFAQ] 5 = [resetSFAQ] := by
  unfold keyword_search_faqs
  rw [if_neg (show ¬(([resetFAQ] : List FAQ).isEmpty = true) from by decide)]
  rw [search_account, filterMap_fresh_keep _ _ resetSFAQ (by decide) rfl, List.filterMap_nil]

/-- The full retrieval on the one-entry service corpus. -/
theorem ksearch_truck_single :
    keyword_search_faqs (("truck fix").toList) [serviceFAQ] 5 = [serviceSFAQ] := by
  unfold keyword_search_faqs
  rw [if_neg (show ¬(([serviceFAQ] : List FAQ).isEmpty = true) from by decide)]
  rw [search_truck_single, filterMap_fresh_keep _ _ serviceSFAQ (by decide) rfl,
    List.filterMap_nil]

/-- The full retrieval on the two-entry vehicle corpus. -/
theorem ksearch_truck_pair :
    keyword_search_faqs (("truck fix").toList) [serviceFAQ, fleetFAQ] 5 =
      [serviceSFAQ, fleetSFAQ] := by
  unfold keyword_search_faqs
  rw [if_neg (show ¬(([serviceFAQ, fleetFAQ] : List FAQ).isEmpty = true) from by decide)]
  rw [search_truck_pair, filterMap_fresh_keep _ _ serviceSFAQ (by decide) rfl,
    filterMap_fresh_keep _ _ fleetSFAQ (by decide) rfl, List.filterMap_nil]

/-! ## Claim C2 — `ground_answer` -/

/-- A left fold of `max` computes an attained upper bound. -/
theorem foldl_max_spec : ∀ (l : List ℚ) (s : ℚ),
    (l.foldl max s = s ∨ l.foldl max s ∈ l) ∧ s ≤ l.foldl max s ∧
      ∀ x ∈ l, x ≤ l.foldl max s := by
  intro l
  induction l with
  | nil => intro s; exact ⟨Or.inl rfl, le_refl _, by simp⟩
  | cons y ys ih =>
    intro s
    rw [List.foldl_cons]
    obtain ⟨h1, h2, h3⟩ := ih (max s y)
    refine ⟨?_, le_trans (le_max_left s y) h2, ?_⟩
    · rcases h1 with he | hm
      · rcases max_choice s y with hc | hc
        · exact Or.inl (he.trans hc)
        · exact Or.inr (by rw [he, hc]; exact List.mem_cons_self y ys)
      · exact Or.inr (List.mem_cons_of_mem y hm)
    · intro x hx
      rcases List.mem_cons.mp hx with rfl | hx
      · exact le_trans (le_max_right s x) h2
      · exact h3 x hx

/-- C2: `ground_answer` is grounded iff the match list is non-empty; when
grounded, the confidence is the maximum similarity score over the matches
and a fixed hedging note is appended exactly when that confidence is below
`0.6`; when not grounded the answer is replaced by the fixed
contact-support message and the confidence is `0.0`. -/
theorem claim_C2_ground_answer (query answer : List Char) (ml : List SFAQ) :
    ((ground_answer query ml answer).is_grounded = true ↔ ml ≠ []) ∧
    (ml ≠ [] →
      ((ground_answer query ml answer).confidence ∈ ml.map (fun f => f.similarity_score) ∧
        ∀ f ∈ ml, f.similarity_score ≤ (ground_answer query ml answer).confidence) ∧
      ((ground_answer query ml answer).confidence < 0.6 →
        (ground_answer query ml answer).grounded_answer = answer ++ groundingNote) ∧
      (¬(ground_answer query ml answer).confidence < 0.6 →
        (ground_answer query ml answer).grounded_answer = answer)) ∧
    (ml = [] →
      (ground_answer query ml answer).grounded_answer = noInfoMessage query ∧
      (ground_answer query ml answer).confidence = 0) := by
  cases ml with
  | nil =>
    refine ⟨by simp [ground_answer], by simp, fun _ => ⟨rfl, rfl⟩⟩
  | cons f rest =>
    have hspec := foldl_max_spec (rest.map (fun x => x.similarity_score)) f.similarity_score
    have hconf : (ground_answer query (f :: rest) answer).confidence =
        (rest.map (fun x => x.similarity_score)).foldl max f.similarity_score := rfl
    refine ⟨by simp [ground_answer], fun _ => ⟨⟨?_, ?_⟩, ?_, ?_⟩, by simp⟩
    · show (rest.map (fun x => x.similarity_score)).foldl max f.similarity_score ∈ _
      rcases hspec.1 with he | hm
      · rw [he, List.map_cons]
        exact List.mem_cons_self _ _
      · rw [List.map_cons]
        exact List.mem_cons_of_mem _ hm
    · intro g hg
      rcases List.mem_cons.mp hg with rfl | hg
      · exact hspec.2.1
      · exact hspec.2.2 g.similarity_score (List.mem_map_of_mem _ hg)
    · intro hc
      rw [hconf] at hc
      show answer ++ (if _ < 0.6 then groundingNote else []) = _
      rw [if_pos hc]
    · intro hc
      rw [hconf] at hc
      show answer ++ (if _ < 0.6 then groundingNote else []) = _
      rw [if_neg hc, List.append_nil]

/-- C2 witness: a one-match grounding (confidence `1/2 < 0.6`, note
appended) and the empty-corpus fallback. -/
theorem claim_C2_ground_answer_witness :
    (ground_answer (("x").toList) [resetSFAQ] (("a").toList)).is_grounded = true ∧
    (ground_answer (("x").toList) [resetSFAQ] (("a").toList)).grounded_answer =
      ("a").toList ++ groundingNote ∧
    (ground_answer (("x").toList) ([] : List SFAQ) (("a").toList)).confidence = 0 := by
  have hc : (ground_answer (("x").toList) [resetSFAQ] (("a").toList)).confidence = 1/2 := rfl
  refine ⟨?_, ?_, ?_⟩
  · exact (claim_C2_ground_answer (("x").toList) (("a").toList) [resetSFAQ]).1.mpr (by simp)
  · exact (((claim_C2_ground_answer (("x").toList) (("a").toList) [resetSFAQ]).2.1
      (by simp)).2.1 (by rw [hc]; norm_num))
  · exact ((claim_C2_ground_answer (("x").toList) (("a").toList) []).2.2 rfl).2

/-! ## Claim C3 — freshness filter inside retrieval -/

/-- C3: an entry returned by the retrieval step never contains a staleness
marker in its (lowercased) answer text. -/
theorem claim_C3_freshness (query : List Char) (faqs : List FAQ) (top_k : Nat)
    (e : SFAQ) (he : e ∈ keyword_search_faqs query faqs top_k)
    (marker : List Char) (hm : marker ∈ outdated_markers) :
    isSubstr marker (lowerL e.answer) = false := by
  unfold keyword_search_faqs at he
  split at he
  · simp at he
  · rw [List.mem_filterMap] at he
    obtain ⟨p, _, hpe⟩ := he
    by_cases hv : validate_answer_freshness p.1 = true
    · rw [if_pos hv] at hpe
      have he2 : e.answer = p.1.answer := by
        cases hpe
        rfl
      unfold validate_answer_freshness at hv
      rw [Bool.not_eq_true', List.any_eq_false] at hv
      rw [he2]
      exact Bool.eq_false_iff.mpr (hv marker hm)
    · rw [if_neg hv] at hpe
      exact absurd hpe (by simp)

/-- C3 witness: the reset corpus retrieval returns an entry, and that
entry is marker-free. -/
theorem claim_C3_freshness_witness :
    resetSFAQ ∈ keyword_search_faqs (("account creation").toList) [resetFAQ] 5 ∧
    isSubstr (("coming soon").toList) (lowerL resetSFAQ.answer) = false := by
  constructor
  · rw [ksearch_account]
    exact List.mem_singleton.mpr rfl
  · exact claim_C3_freshness (("account creation").toList) [resetFAQ] 5 resetSFAQ
      (by rw [ksearch_account]; exact List.mem_singleton.mpr rfl)
      (("coming soon").toList) (by decide)

/-! ## Claims C9 and C10 — `detect_sentiment` -/

/-- C9 counterexample: `"good problem"` has one positive and one negative
indicator, no frustrated indicator, and the label is `positive`, not the
`negative` the claim requires on ties. -/
theorem claim_C9_counterexample :
    (detect_sentiment (("good problem").toList)).positive_indicators =
      (detect_sentiment (("good problem").toList)).negative_indicators ∧
    0 < (detect_sentiment (("good problem").toList)).positive_indicators ∧
    (detect_sentiment (("good problem").toList)).frustrated_indicators = 0 ∧
    (detect_sentiment (("good problem").toList)).sentiment ≠ ("negative").toList := by
  refine ⟨by decide, by decide, by decide, by decide⟩

/-- C9 (amended): a frustrated indicator always forces the `frustrated`
label; with no frustrated indicator and equal non-zero positive and
negative counts the label is `positive` (ties go to positive, not
negative). -/
theorem claim_C9_amended (text : List Char) :
    (0 < (frustrated_words.filter (fun w => isSubstr w (lowerL text))).length →
      (detect_sentiment text).sentiment = ("frustrated").toList) ∧
    ((frustrated_words.filter (fun w => isSubstr w (lowerL text))).length = 0 →
      (positive_words.filter (fun w => isSubstr w (lowerL text))).length =
        (negative_words.filter (fun w => isSubstr w (lowerL text))).length →
      0 < (positive_words.filter (fun w => isSubstr w (lowerL text))).length →
      (detect_sentiment text).sentiment = ("positive").toList) := by
  constructor
  · intro hf
    simp only [detect_sentiment]
    rw [if_neg (by omega), if_pos hf]
  · intro hf he hp
    simp only [detect_sentiment]
    rw [if_neg (by omega), if_neg (by omega), if_neg (by omega), if_pos hp]

/-- C9 witness: `"confused"` is labelled `frustrated`; `"good problem"`
(a tie) is labelled `positive`. -/
theorem claim_C9_amended_witness :
    (detect_sentiment (("confused").toList)).sentiment = ("frustrated").toList ∧
    (detect_sentiment (("good problem").toList)).sentiment = ("positive").toList := by
  constructor
  · exact (claim_C9_amended (("confused").toList)).1 (by decide)
  · exact (claim_C9_amended (("good problem").toList)).2 (by decide) (by decide) (by decide)

/-- Python `round(-1.0, 2) = -1.0`. -/
theorem round2_neg_one : round2 (-1) = -1 := by
  simp only [round2]
  have h100 : (-1 : ℚ) * 100 = ((-100 : ℤ) : ℚ) := by norm_num
  rw [h100, Int.floor_intCast]
  norm_num

/-- C10: when no frustrated indicator is present and the negative count
strictly exceeds the positive count, the label is `negative` and the
sentiment score is exactly `-1.0` — the second argument of
`min(-1.0, -(neg / max(1, pos + neg)))` is never below `-1`, so the
minimum is always `-1.0`. -/
theorem claim_C10_negative_score (text : List Char)
    (h1 : (frustrated_words.filter (fun w => isSubstr w (lowerL text))).length = 0)
    (h2 : (positive_words.filter (fun w => isSubstr w (lowerL text))).length <
      (negative_words.filter (fun w => isSubstr w (lowerL text))).length) :
    (detect_sentiment text).sentiment = ("negative").toList ∧
    (detect_sentiment text).sentiment_score = -1 := by
  simp only [detect_sentiment]
  rw [if_neg (by omega), if_neg (by omega), if_pos h2]
  refine ⟨rfl, ?_⟩
  show round2 (min (-1 : ℚ) _) = -1
  have hden : (0 : ℚ) <
      ((max 1 ((positive_words.filter (fun w => isSubstr w (lowerL text))).length +
        (negative_words.filter (fun w => isSubstr w (lowerL text))).length) : Nat) : ℚ) := by
    have : 1 ≤ max 1 ((positive_words.filter (fun w => isSubstr w (lowerL text))).length +
        (negative_words.filter (fun w => isSubstr w (lowerL text))).length) :=
      le_max_left _ _
    exact_mod_cast lt_of_lt_of_le one_pos (by exact_mod_cast this)
  have hfrac : (((negative_words.filter (fun w => isSubstr w (lowerL text))).length : ℚ) /
      ((max 1 ((positive_words.filter (fun w => isSubstr w (lowerL text))).length +
        (negative_words.filter (fun w => isSubstr w (lowerL text))).length) : Nat) : ℚ)) ≤ 1 := by
    rw [div_le_one hden]
    exact_mod_cast le_max_right 1 _ |>.trans' (by omega)
  rw [min_eq_left (by linarith), round2_neg_one]

/-- C10 witness: `"bad"` is labelled `negative` with score exactly `-1`. -/
theorem claim_C10_negative_score_witness :
    (detect_sentiment (("bad").toList)).sentiment = ("negative").toList ∧
    (detect_sentiment (("bad").toList)).sentiment_score = -1 :=
  claim_C10_negative_score (("bad").toList) (by decide) (by decide)

/-! ## Claim C1 — the `search_faqs` contract -/

/-- The per-entry score exactly as claim C1 states it (no category
boost): `final = max(question_similarity, 0.5 * answer_similarity)`.
Written from the claim, to be compared with the source's scoring. -/
def c1ClaimScore (query : List Char) (faq : FAQ) : ℚ :=
  max (calculate_similarity query faq.question)
    (calculate_similarity query faq.answer * 0.5)

/-- The search result exactly as claim C1 states it: keep the entries
scoring at least the threshold (in corpus order), sort stably by
descending score, truncate to `top_k`.  Written from the claim. -/
def c1ClaimSearch (query : List Char) (faqs : List FAQ) (top_k : Nat) (threshold : ℚ) :
    List (FAQ × ℚ) :=
  (sortDesc ((faqs.map (fun f => (f, c1ClaimScore query f))).filter
    (fun p => threshold ≤ p.2))).take top_k

/-- The C1 score amended by what the counterexample forces: the category
boost (`×1.2`, capped at `1.0`) applies when the entry's category tag
substring-matches the detected fine intent in either direction. -/
def c1AmendedScore (query : List Char) (faq : FAQ) : ℚ :=
  match faq.category with
  | some cat =>
    if isSubstr (lowerL cat) (lowerL (detect_intent query).1) ||
        isSubstr (detect_intent query).1 (lowerL cat) then
      min (c1ClaimScore query faq * 1.2) 1
    else c1ClaimScore query faq
  | none => c1ClaimScore query faq

/-- `c1ClaimScore "gps" gpsBoostFAQ = 6/7`. -/
theorem c1ClaimScore_gpsBoost :
    c1ClaimScore (("gps").toList) gpsBoostFAQ = 6/7 := by
  simp only [c1ClaimScore, gpsBoostFAQ]
  rw [calc_gps_gpss, calc_gps_empty, max_eq_left (by norm_num)]

/-- C1 counterexample: on the `gps` corpus the code's result differs from
the claim's formula — the category boost lifts the score from `6/7` to
`1`. -/
theorem claim_C1_counterexample :
    search_faqs (("gps").toList) [gpsBoostFAQ] 5 (0.3 : ℚ) ≠
      c1ClaimSearch (("gps").toList) [gpsBoostFAQ] 5 (0.3 : ℚ) := by
  rw [search_gps_single]
  have hrhs : c1ClaimSearch (("gps").toList) [gpsBoostFAQ] 5 (0.3 : ℚ) =
      [(gpsBoostFAQ, 6/7)] := by
    unfold c1ClaimSearch
    rw [List.map_cons, List.map_nil, c1ClaimScore_gpsBoost, List.filter_cons]
    rw [if_pos (show (decide ((0.3 : ℚ) ≤ ((gpsBoostFAQ, (6 : ℚ)/7)).2)) = true from by
      rw [decide_eq_true_eq]; norm_num)]
    rfl
  rw [hrhs]
  intro h
  simp only [List.cons.injEq, Prod.mk.injEq] at h
  exact absurd h.1.2 (by norm_num)

/-- C1 (amended): `search_faqs` returns, for a non-whitespace query,
exactly the boosted-score entries at or above the threshold, stably
sorted by descending score and truncated to `top_k`; a whitespace-only
query yields the empty result. -/
theorem claim_C1_amended (query : List Char) (faqs : List FAQ) (top_k : Nat)
    (threshold : ℚ) :
    search_faqs query faqs top_k threshold =
      if (stripL query).isEmpty then []
      else (sortDesc ((faqs.map (fun f => (f, c1AmendedScore query f))).filter
        (fun p => threshold ≤ p.2))).take top_k := by
  simp only [search_faqs]
  by_cases hq : (stripL query).isEmpty = true
  · rw [if_pos hq, if_pos hq]
  · rw [if_neg hq, if_neg hq]
    congr 2
    induction faqs with
    | nil => rfl
    | cons f l ih =>
      rw [List.filterMap_cons, List.map_cons, List.filter_cons]
      have hsc : entryScore query (detect_intent query).1 f = c1AmendedScore query f := rfl
      by_cases hth : threshold ≤ entryScore query (detect_intent query).1 f
      · rw [if_pos hth]
        rw [if_pos (show (decide (threshold ≤ ((f, c1AmendedScore query f)).2)) = true from by
          rw [decide_eq_true_eq]; rw [← hsc]; exact hth)]
        rw [← hsc, ih]
      · rw [if_neg hth]
        rw [if_neg (show ¬(decide (threshold ≤ ((f, c1AmendedScore query f)).2)) = true from by
          rw [decide_eq_true_eq]; rw [← hsc]; exact hth)]
        exact ih

/-! ## Claim C7 — exact question match -/

/-- C7 counterexample: with the query `"gps"`, the entry whose question is
exactly `"gps"` is *not* the first returned element — the earlier,
category-boosted entry (question `"gpss"`) ties at score `1` and stays
first by stability. -/
theorem claim_C7_counterexample :
    gpsExactFAQ.question = ("gps").toList ∧
    gpsBoostFAQ.question ≠ ("gps").toList ∧
    search_faqs (("gps").toList) [gpsBoostFAQ, gpsExactFAQ] 5 (0.3 : ℚ) =
      [(gpsBoostFAQ, 1), (gpsExactFAQ, 1)] :=
  ⟨rfl, by decide, search_gps_pair⟩

/-- C7 (amended): at threshold `0.3`, an entry whose question equals the
query scores exactly `1`, at least as high as every other entry, and the
first returned element attains that maximal score `1` (the exactly
matching entry itself is first only when no earlier entry also reaches
`1`). -/
theorem claim_C7_amended (query : List Char) (faqs : List FAQ) (top_k : Nat) (f : FAQ)
    (hmem : f ∈ faqs) (hq : f.question = query) (hne : (stripL query).isEmpty = false)
    (hk : 1 ≤ top_k) :
    entryScore query (detect_intent query).1 f = 1 ∧
    (∀ f' ∈ faqs, entryScore query (detect_intent query).1 f' ≤
      entryScore query (detect_intent query).1 f) ∧
    (∃ h t, search_faqs query faqs top_k (0.3 : ℚ) = h :: t ∧ h.2 = 1) := by
  have hs1 : entryScore query (detect_intent query).1 f = 1 := entryScore_self _ _ _ hq
  refine ⟨hs1, fun f' _ => by rw [hs1]; exact entryScore_le_one _ _ _, ?_⟩
  simp only [search_faqs]
  rw [if_neg (by rw [hne]; exact Bool.false_ne_true)]
  have hfmem : (f, (1 : ℚ)) ∈ faqs.filterMap (fun faq =>
      if (0.3 : ℚ) ≤ entryScore query (detect_intent query).1 faq then
        some (faq, entryScore query (detect_intent query).1 faq)
      else none) := by
    rw [List.mem_filterMap]
    exact ⟨f, hmem, by rw [hs1, if_pos (by norm_num)]⟩
  cases hsort : sortDesc (faqs.filterMap (fun faq =>
      if (0.3 : ℚ) ≤ entryScore query (detect_intent query).1 faq then
        some (faq, entryScore query (detect_intent query).1 faq)
      else none)) with
  | nil =>
    exact absurd (mem_sortDesc.mpr hfmem) (by rw [hsort]; simp)
  | cons h t =>
    cases top_k with
    | zero => omega
    | succ m =>
      refine ⟨h, t.take m, rfl, ?_⟩
      have hmax := sortDesc_head_max hsort (f, 1) hfmem
      have hh : h ∈ faqs.filterMap (fun faq =>
          if (0.3 : ℚ) ≤ entryScore query (detect_intent query).1 faq then
            some (faq, entryScore query (detect_intent query).1 faq)
          else none) := by
        rw [← mem_sortDesc (l := faqs.filterMap _)]
        rw [hsort]
        exact List.mem_cons_self h t
      rw [List.mem_filterMap] at hh
      obtain ⟨f', _, hif⟩ := hh
      by_cases hth : (0.3 : ℚ) ≤ entryScore query (detect_intent query).1 f'
      · rw [if_pos hth] at hif
        have : h.2 = entryScore query (detect_intent query).1 f' := by
          cases hif; rfl
        exact le_antisymm (this ▸ entryScore_le_one _ _ _) hmax
      · rw [if_neg hth] at hif
        exact absurd hif (by simp)

/-- C7 witness: the amended statement at the two-entry `gps` corpus. -/
theorem claim_C7_amended_witness :
    entryScore (("gps").toList) (detect_intent (("gps").toList)).1 gpsExactFAQ = 1 ∧
    (∀ f' ∈ [gpsBoostFAQ, gpsExactFAQ],
      entryScore (("gps").toList) (detect_intent (("gps").toList)).1 f' ≤
        entryScore (("gps").toList) (detect_intent (("gps").toList)).1 gpsExactFAQ) ∧
    (∃ h t, search_faqs (("gps").toList) [gpsBoostFAQ, gpsExactFAQ] 5 (0.3 : ℚ) =
      h :: t ∧ h.2 = 1) :=
  claim_C7_amended (("gps").toList) [gpsBoostFAQ, gpsExactFAQ] 5 gpsExactFAQ
    (by decide) rfl (by decide) (by decide)

/-! ## Claim C8 — the category boost -/

/-- The per-entry score as claim C8 states it: the combined base score
`max(q_similarity, 0.5 * a_similarity)`, boosted (`×1.2`, capped at
`1.0`) when the entry's category tag substring-matches the *coarse*
intent label `classify_query_intent query` in either direction.  Written
from the claim's words, to be compared with the source's scoring (which
keys the boost to the fine `detect_intent` label instead). -/
def c8ClaimScore (query : List Char) (faq : FAQ) : ℚ :=
  match faq.category with
  | some cat =>
    if isSubstr (lowerL cat) (lowerL (classify_query_intent query)) ||
        isSubstr (classify_query_intent query) (lowerL cat) then
      min (c1ClaimScore query faq * 1.2) 1
    else c1ClaimScore query faq
  | none => c1ClaimScore query faq

/-- C8 counterexample: the query `"gps"` has the coarse label
`"general"`, which substring-matches the category tag `"gps"` in neither
direction, so the claim's coarse-keyed formula predicts the unboosted
score `6/7` for the tagged entry — but `search_faqs` keys the boost to
the fine `detect_intent` label (`"gps"`) and returns the boosted, capped
score `1`. -/
theorem claim_C8_counterexample :
    classify_query_intent (("gps").toList) = ("general").toList ∧
    (isSubstr (lowerL (("gps").toList)) (lowerL (classify_query_intent (("gps").toList))) ||
      isSubstr (classify_query_intent (("gps").toList)) (lowerL (("gps").toList))) = false ∧
    c8ClaimScore (("gps").toList) gpsBoostFAQ = 6/7 ∧
    search_faqs (("gps").toList) [gpsBoostFAQ] 5 (0.3 : ℚ) = [(gpsBoostFAQ, 1)] ∧
    (6/7 : ℚ) ≠ 1 := by
  refine ⟨by decide, by decide, ?_, search_gps_single, by norm_num⟩
  simp only [c8ClaimScore, gpsBoostFAQ]
  rw [if_neg (show ¬((isSubstr (lowerL (("gps").toList))
      (lowerL (classify_query_intent (("gps").toList))) ||
      isSubstr (classify_query_intent (("gps").toList))
        (lowerL (("gps").toList))) = true) from by decide)]
  exact c1ClaimScore_gpsBoost

/-- C8 (amended): every `(entry, score)` pair returned by `search_faqs`
carries exactly the amended score: the base score
`max(q_similarity, 0.5 * a_similarity)` multiplied by `1.2` and capped at
`1.0` when the entry's category tag substring-matches the *fine*
`detect_intent` label (in either direction) — not the coarse
`classify_query_intent` label — and the unboosted base score
otherwise. -/
theorem claim_C8_amended (query : List Char) (faqs : List FAQ) (top_k : Nat)
    (threshold : ℚ) (f : FAQ) (s : ℚ)
    (hmem : (f, s) ∈ search_faqs query faqs top_k threshold) :
    (∀ cat, f.category = some cat →
      ((isSubstr (lowerL cat) (lowerL (detect_intent query).1) ||
          isSubstr (detect_intent query).1 (lowerL cat)) = true →
        s = min (max (calculate_similarity query f.question)
          (calculate_similarity query f.answer * 0.5) * 1.2) 1) ∧
      ((isSubstr (lowerL cat) (lowerL (detect_intent query).1) ||
          isSubstr (detect_intent query).1 (lowerL cat)) = false →
        s = max (calculate_similarity query f.question)
          (calculate_similarity query f.answer * 0.5))) ∧
    (f.category = none →
      s = max (calculate_similarity query f.question)
        (calculate_similarity query f.answer * 0.5)) := by
  have hs : s = entryScore query (detect_intent query).1 f := by
    unfold search_faqs at hmem
    split at hmem
    · simp at hmem
    · have h1 := List.take_subset top_k _ hmem
      have h2 := mem_sortDesc.mp h1
      rw [List.mem_filterMap] at h2
      obtain ⟨f', _, hif⟩ := h2
      by_cases hth : threshold ≤ entryScore query (detect_intent query).1 f'
      · rw [if_pos hth] at hif
        have hpair : f' = f ∧ entryScore query (detect_intent query).1 f' = s := by
          cases hif
          exact ⟨rfl, rfl⟩
        rw [← hpair.2, hpair.1]
      · rw [if_neg hth] at hif
        exact absurd hif (by simp)
  refine ⟨fun cat hcat => ⟨fun hcond => ?_, fun hcond => ?_⟩, fun hcat => ?_⟩
  · rw [hs]
    simp only [entryScore, hcat]
    rw [if_pos hcond]
  · rw [hs]
    simp only [entryScore, hcat]
    rw [if_neg (by rw [hcond]; exact Bool.false_ne_true)]
  · rw [hs]
    simp only [entryScore, hcat]

/-- C8 witness: the boosted `gps` entry's returned score `1` equals the
capped boosted base score. -/
theorem claim_C8_amended_witness :
    (isSubstr (lowerL (("gps").toList)) (lowerL (detect_intent (("gps").toList)).1) ||
      isSubstr (detect_intent (("gps").toList)).1 (lowerL (("gps").toList))) = true ∧
    (1 : ℚ) = min (max (calculate_similarity (("gps").toList) gpsBoostFAQ.question)
      (calculate_similarity (("gps").toList) gpsBoostFAQ.answer * 0.5) * 1.2) 1 := by
  have hcond : (isSubstr (lowerL (("gps").toList)) (lowerL (detect_intent (("gps").toList)).1) ||
      isSubstr (detect_intent (("gps").toList)).1 (lowerL (("gps").toList))) = true := by
    rw [intent_gps]
    decide
  refine ⟨hcond, ?_⟩
  exact ((claim_C8_amended (("gps").toList) [gpsBoostFAQ] 5 (0.3 : ℚ) gpsBoostFAQ 1
    (by rw [search_gps_single]; exact List.mem_singleton.mpr rfl)).1
    (("gps").toList) rfl).1 hcond

/-! ## Claim C5 — the context validator and its orchestrator consequence -/

/-- C5: the context validator rejects a present top match exactly on
registration-query/password-answer, password-query/registration-answer
(both regardless of score), or a vehicle query whose top question has no
vehicle keyword with score below `0.5`; and whenever the orchestrator
reaches validation and it rejects, the response is the clarification
answer with confidence `0.3` and `is_grounded = false`. -/
theorem claim_C5_context_validation :
    (∀ (query : List Char) (top : SFAQ) (rest : List SFAQ) (score : ℚ),
      validate_context_appropriateness query (top :: rest) score = false ↔
        ((registration_keywords.any (fun kw => isSubstr kw (lowerL query)) = true ∧
          password_keywords.any (fun kw => isSubstr kw (lowerL top.question)) = true) ∨
         (password_keywords.any (fun kw => isSubstr kw (lowerL query)) = true ∧
          registration_keywords.any (fun kw => isSubstr kw (lowerL top.question)) = true) ∨
         (vehicle_keywords.any (fun kw => isSubstr kw (lowerL query)) = true ∧
          vehicle_keywords.any (fun kw => isSubstr kw (lowerL top.question)) = false ∧
          score < 0.5))) ∧
    (∀ (llm : Option (List Char)) (all_faqs : List FAQ) (query : List Char)
      (top : SFAQ) (rest : List SFAQ),
      get_direct_answer_template (classify_query_intent query) = none →
      keyword_search_faqs query all_faqs 5 = top :: rest →
      should_override_similar_matches query (top :: rest) (classify_query_intent query) =
        false →
      validate_context_appropriateness query (top :: rest) top.similarity_score = false →
      search_and_generate llm all_faqs query =
        ⟨clarificationAnswer query, [], 0.3, false⟩) := by
  constructor
  · intro query top rest score
    simp only [validate_context_appropriateness]
    constructor
    · intro hfalse
      split_ifs at hfalse with h1 h2 h3
      · left
        simpa [Bool.and_eq_true] using h1
      · right; left
        simpa [Bool.and_eq_true] using h2
      · right; right
        simp only [Bool.and_eq_true, Bool.not_eq_true', decide_eq_true_eq] at h3
        exact ⟨h3.1.1, h3.1.2, h3.2⟩
    · intro hdisj
      split_ifs with h1 h2 h3
      · rfl
      · rfl
      · rfl
      · exfalso
        rcases hdisj with ⟨ha, hb⟩ | ⟨ha, hb⟩ | ⟨ha, hb, hc⟩
        · exact h1 (by simp [ha, hb])
        · exact h2 (by simp [ha, hb])
        · exact h3 (by simp [ha, hb, hc])
  · intro llm all_faqs query top rest htemp hlist hover hval
    simp only [search_and_generate]
    rw [htemp]
    simp only [hlist, List.isEmpty_cons, Bool.not_false, hover, Bool.and_false,
      if_neg (Bool.false_ne_true), hval, Bool.not_false, Bool.and_true]
    rw [if_pos True.intro]

/-- C5 witness: the query `"account creation"` (a registration-domain
query per the validator's keyword list, but `general` for the coarse
classifier, so no template/override interferes) against a corpus whose
only match is the password-domain question `"reset"`. -/
theorem claim_C5_context_validation_witness :
    validate_context_appropriateness (("account creation").toList) [resetSFAQ]
      resetSFAQ.similarity_score = false ∧
    search_and_generate none [resetFAQ] (("account creation").toList) =
      ⟨clarificationAnswer (("account creation").toList), [], 0.3, false⟩ := by
  have hval : validate_context_appropriateness (("account creation").toList) [resetSFAQ]
      resetSFAQ.similarity_score = false :=
    (claim_C5_context_validation.1 (("account creation").toList) resetSFAQ []
      resetSFAQ.similarity_score).mpr (Or.inl ⟨by decide, by decide⟩)
  exact ⟨hval, claim_C5_context_validation.2 none [resetFAQ] (("account creation").toList)
    resetSFAQ [] (by decide) ksearch_account (by decide) hval⟩

/-! ## Claim C4 — the orchestrator override -/

/-- C4 counterexample: a vehicle-domain query whose single retrieved match
has a maintenance-keyword question is *not* discarded
(`should_override_similar_matches` requires at least two matches), and the
pipeline answers grounded from that match instead of acting as if
retrieval returned nothing. -/
theorem claim_C4_counterexample :
    classify_query_intent (("truck fix").toList) = ("vehicle_management").toList ∧
    keyword_search_faqs (("truck fix").toList) [serviceFAQ] 5 = [serviceSFAQ] ∧
    ([("maintenance").toList, ("service").toList, ("repair").toList].any
      (fun t => isSubstr t (lowerL serviceSFAQ.question))) = true ∧
    (search_and_generate none [serviceFAQ] (("truck fix").toList)).is_grounded = true ∧
    (search_and_generate none [serviceFAQ] (("truck fix").toList)).relevant_faqs ≠ [] := by
  have hval : validate_context_appropriateness (("truck fix").toList) [serviceSFAQ]
      serviceSFAQ.similarity_score = true := by
    simp only [validate_context_appropriateness]
    rw [if_neg (show ¬(registration_keywords.any
        (fun kw => isSubstr kw (lowerL (("truck fix").toList))) &&
        password_keywords.any (fun kw => isSubstr kw (lowerL serviceSFAQ.question))) = true
      from by decide)]
    rw [if_neg (show ¬(password_keywords.any
        (fun kw => isSubstr kw (lowerL (("truck fix").toList))) &&
        registration_keywords.any (fun kw => isSubstr kw (lowerL serviceSFAQ.question))) = true
      from by decide)]
    rw [if_neg ?hc]
    case hc =>
      intro h
      simp only [Bool.and_eq_true, decide_eq_true_eq] at h
      have : ¬(serviceSFAQ.similarity_score < 0.5) := by
        rw [show serviceSFAQ.similarity_score = 1/2 from rfl]
        norm_num
      exact this h.2
  have hpipe : search_and_generate none [serviceFAQ] (("truck fix").toList) =
      ⟨serviceSFAQ.answer ++ groundingNote,
        [⟨serviceSFAQ.question, serviceSFAQ.answer, ("General").toList⟩], 1/2, true⟩ := by
    simp only [search_and_generate]
    rw [show get_direct_answer_template (classify_query_intent (("truck fix").toList)) =
      none from by decide]
    simp only [ksearch_truck_single, List.isEmpty_cons, Bool.not_false,
      show should_override_similar_matches (("truck fix").toList) [serviceSFAQ]
        (classify_query_intent (("truck fix").toList)) = false from rfl,
      Bool.and_false, if_neg (Bool.false_ne_true), hval, Bool.not_true, Bool.and_true,
      Bool.and_false]
    have hg : ground_answer (("truck fix").toList) [serviceSFAQ]
        (generate_llm_answer none [serviceSFAQ]) =
        ⟨serviceSFAQ.answer ++ groundingNote, [serviceSFAQ], true, 1/2⟩ := by
      have hc : (([] : List SFAQ).map (fun x => x.similarity_score)).foldl max
          serviceSFAQ.similarity_score = (1 : ℚ)/2 := rfl
      simp only [ground_answer, generate_llm_answer, hc]
      rw [if_pos (show (1 : ℚ)/2 < 0.6 from by norm_num)]
    rw [hg]
    rfl
  refine ⟨by decide, ksearch_truck_single, by decide, ?_, ?_⟩
  · rw [hpipe]
  · rw [hpipe]
    simp

/-- C4 (amended): when the pipeline reaches retrieval (no direct-answer
template), retrieval returns *at least two* matches, and the top match's
domain conflicts with the classified intent per the override rule, all
matches are discarded and the pipeline returns the fixed no-match
response. -/
theorem claim_C4_amended (llm : Option (List Char)) (all_faqs : List FAQ)
    (query : List Char) (top : SFAQ) (rest : List SFAQ)
    (htemp : get_direct_answer_template (classify_query_intent query) = none)
    (hlist : keyword_search_faqs query all_faqs 5 = top :: rest)
    (hlen : rest ≠ [])
    (hconf : (classify_query_intent query = ("registration").toList ∧
        [("password").toList, ("forgot").toList, ("reset").toList].any
          (fun t => isSubstr t (lowerL top.question)) = true) ∨
      (classify_query_intent query = ("password_help").toList ∧
        [("register").toList, ("sign up").toList, ("create account").toList].any
          (fun t => isSubstr t (lowerL top.question)) = true) ∨
      (classify_query_intent query = ("vehicle_management").toList ∧
        [("maintenance").toList, ("service").toList, ("repair").toList].any
          (fun t => isSubstr t (lowerL top.question)) = true)) :
    search_and_generate llm all_faqs query = ⟨noMatchAnswer query, [], 0, false⟩ := by
  have hover : should_override_similar_matches query (top :: rest)
      (classify_query_intent query) = true := by
    simp only [should_override_similar_matches]
    rw [if_neg (show ¬(rest.isEmpty = true) from by
      cases rest with
      | nil => exact absurd rfl hlen
      | cons a l => simp)]
    rcases hconf with ⟨ha, hb⟩ | ⟨ha, hb⟩ | ⟨ha, hb⟩ <;> rw [ha, hb] <;> rfl
  simp only [search_and_generate]
  rw [htemp]
  simp only [hlist, List.isEmpty_cons, Bool.not_false, hover, Bool.and_true, if_true]
  rw [if_neg (show ¬((false && !validate_context_appropriateness query [] 0) = true) from by
    simp)]
  rw [if_pos (show (([] : List SFAQ).isEmpty = true) from rfl)]

/-- C4 witness: the two-match vehicle corpus — override fires and the
pipeline returns the no-match response. -/
theorem claim_C4_amended_witness :
    search_and_generate none [serviceFAQ, fleetFAQ] (("truck fix").toList) =
      ⟨noMatchAnswer (("truck fix").toList), [], 0, false⟩ :=
  claim_C4_amended none [serviceFAQ, fleetFAQ] (("truck fix").toList) serviceSFAQ
    [fleetSFAQ] (by decide) ksearch_truck_pair (by simp)
    (Or.inr (Or.inr ⟨by decide, by decide⟩))

/-! ## Claim C6 — repeated-message spam rejection -/

/-- With fewer than three recorded messages for the user and no spam
keyword in the message, `check_spam` passes. -/
theorem check_spam_small (st : SafetyState) (now : ℤ) (u q : List Char)
    (hlen : (st.user_message_history u).length < 3)
    (hkw : spam_keywords.any (fun kw => isSubstr kw (lowerL q)) = false) :
    check_spam st now u q = (false, []) := by
  simp only [check_spam]
  split_ifs with h3 hk
  · exfalso
    have h1 := List.length_filter_le (fun msg => decide (lowerL msg = lowerL q))
      ((st.user_message_history u).filterMap
        (fun mt => if now - mt.2 < 300 then some mt.1 else none))
    have h2 := List.length_filterMap_le
      (fun mt : List Char × ℤ => if now - mt.2 < 300 then some mt.1 else none)
      (st.user_message_history u)
    omega
  · rw [hkw] at hk
    exact absurd hk Bool.false_ne_true
  · rfl

/-- A query passing every check is accepted and recorded. -/
theorem validate_query_benign (st : SafetyState) (now : ℤ) (u q : List Char)
    (hblock : is_user_blocked st u = false)
    (hspam : check_spam st now u q = (false, []))
    (habuse : check_abusive_language q = (false, []))
    (hinj : check_prompt_injection q = (false, []))
    (hmal : check_malicious_request q = (false, [])) :
    validate_query st now u q = ((true, []), record_message st now u q) := by
  simp only [validate_query, hblock, hspam, habuse, hinj, hmal]
  simp

/-- Recording a message appends it to the user's history (below the
50-entry cap). -/
theorem record_message_hist (st : SafetyState) (now : ℤ) (u q : List Char)
    (l : List (List Char × ℤ)) (hl : st.user_message_history u = l)
    (hlen : l.length ≤ 49) :
    (record_message st now u q).user_message_history u = l ++ [(q, now)] := by
  have h50 : ¬ (50 < (l ++ [(q, now)]).length) := by
    rw [List.length_append]
    simp only [List.length_cons, List.length_nil]
    omega
  simp only [record_message, hl, if_neg h50]
  simp

/-- C6 counterexample: the same query submitted three times within five
minutes from a fresh user is accepted on all three calls — in particular
the third call is *not* rejected as spam, because `check_spam` counts
only the previously *recorded* messages and `validate_query` records a
message only after it passes, so at the third call just two identical
messages are in the window. -/
theorem claim_C6_counterexample :
    (validate_query initialSafetyState 0 (("u1").toList) (("hi").toList)).1 =
      (true, []) ∧
    (validate_query (validate_query initialSafetyState 0 (("u1").toList)
        (("hi").toList)).2 60 (("u1").toList) (("hi").toList)).1 = (true, []) ∧
    (validate_query (validate_query (validate_query initialSafetyState 0
          (("u1").toList) (("hi").toList)).2 60 (("u1").toList)
        (("hi").toList)).2 120 (("u1").toList) (("hi").toList)).1 =
      (true, []) := by
  decide

/-- C6 (amended): for every user key and benign query (no spam keyword,
abuse pattern, injection keyword or malicious pattern), submitting the
same exact query four times within five minutes causes the *fourth* call
to `validate_query` (not the third) to be rejected with the
repeated-message spam response, the first three calls being accepted; and
a distinct benign query from the same user key within the window is not
flagged by `check_spam`. -/
theorem claim_C6_amended (u q qd : List Char) (t1 t2 t3 t4 : ℤ)
    (h12 : t1 ≤ t2) (h23 : t2 ≤ t3) (_h34 : t3 ≤ t4) (hwin : t4 - t1 < 300)
    (hkw : spam_keywords.any (fun kw => isSubstr kw (lowerL q)) = false)
    (habuse : check_abusive_language q = (false, []))
    (hinj : check_prompt_injection q = (false, []))
    (hmal : check_malicious_request q = (false, []))
    (hne : lowerL qd ≠ lowerL q)
    (hkwd : spam_keywords.any (fun kw => isSubstr kw (lowerL qd)) = false) :
    (validate_query initialSafetyState t1 u q).1 = (true, []) ∧
    (validate_query (validate_query initialSafetyState t1 u q).2 t2 u q).1 =
      (true, []) ∧
    (validate_query (validate_query (validate_query initialSafetyState t1 u q).2
        t2 u q).2 t3 u q).1 = (true, []) ∧
    (validate_query (validate_query (validate_query (validate_query
        initialSafetyState t1 u q).2 t2 u q).2 t3 u q).2 t4 u q).1 =
      (false, spamRepeatMsg) ∧
    check_spam (validate_query (validate_query (validate_query
        initialSafetyState t1 u q).2 t2 u q).2 t3 u q).2 t4 u qd =
      (false, []) := by
  have b1 : check_spam initialSafetyState t1 u q = (false, []) :=
    check_spam_small _ _ _ _ (by simp [initialSafetyState]) hkw
  have v1 : validate_query initialSafetyState t1 u q =
      ((true, []), record_message initialSafetyState t1 u q) :=
    validate_query_benign _ _ _ _ rfl b1 habuse hinj hmal
  have hist1 : (record_message initialSafetyState t1 u q).user_message_history u =
      [(q, t1)] := by
    simpa using record_message_hist initialSafetyState t1 u q [] rfl (by simp)
  have b2 : check_spam (record_message initialSafetyState t1 u q) t2 u q =
      (false, []) :=
    check_spam_small _ _ _ _ (by rw [hist1]; simp) hkw
  have v2 : validate_query (record_message initialSafetyState t1 u q) t2 u q =
      ((true, []),
        record_message (record_message initialSafetyState t1 u q) t2 u q) :=
    validate_query_benign _ _ _ _ rfl b2 habuse hinj hmal
  have hist2 : (record_message (record_message initialSafetyState t1 u q)
      t2 u q).user_message_history u = [(q, t1), (q, t2)] := by
    simpa using record_message_hist _ t2 u q [(q, t1)] hist1 (by simp)
  have b3 : check_spam (record_message (record_message initialSafetyState t1 u q)
      t2 u q) t3 u q = (false, []) :=
    check_spam_small _ _ _ _ (by rw [hist2]; simp) hkw
  have v3 : validate_query (record_message (record_message initialSafetyState
      t1 u q) t2 u q) t3 u q =
      ((true, []), record_message (record_message (record_message
        initialSafetyState t1 u q) t2 u q) t3 u q) :=
    validate_query_benign _ _ _ _ rfl b3 habuse hinj hmal
  have hist3 : (record_message (record_message (record_message
      initialSafetyState t1 u q) t2 u q) t3 u q).user_message_history u =
      [(q, t1), (q, t2), (q, t3)] := by
    simpa using record_message_hist _ t3 u q [(q, t1), (q, t2)] hist2 (by simp)
  have c1 : (if t4 - t1 < 300 then some q else none) = some q :=
    if_pos (by omega)
  have c2 : (if t4 - t2 < 300 then some q else none) = some q :=
    if_pos (by omega)
  have c3 : (if t4 - t3 < 300 then some q else none) = some q :=
    if_pos (by omega)
  have spam4 : check_spam (record_message (record_message (record_message
      initialSafetyState t1 u q) t2 u q) t3 u q) t4 u q =
      (true, spamRepeatMsg) := by
    simp only [check_spam, hist3, List.filterMap_cons, List.filterMap_nil,
      c1, c2, c3]
    simp
  have hb3 : is_user_blocked (record_message (record_message (record_message
      initialSafetyState t1 u q) t2 u q) t3 u q) u = false := rfl
  have v4 : (validate_query (record_message (record_message (record_message
      initialSafetyState t1 u q) t2 u q) t3 u q) t4 u q).1 =
      (false, spamRepeatMsg) := by
    simp only [validate_query, hb3, spam4]
    simp
  have spamd : check_spam (record_message (record_message (record_message
      initialSafetyState t1 u q) t2 u q) t3 u q) t4 u qd = (false, []) := by
    simp only [check_spam, hist3, List.filterMap_cons, List.filterMap_nil,
      c1, c2, c3]
    simp [Ne.symm hne, hkwd]
  refine ⟨by simp [v1], by simp [v1, v2], by simp [v1, v2, v3], ?_, ?_⟩
  · simp only [v1, v2, v3]
    exact v4
  · simp only [v1, v2, v3]
    exact spamd

/-- C6 witness: user key `"u2"`, query `"ok"` at times 0, 60, 120, 180
seconds — the fourth identical call is rejected with the repeated-message
response, and the distinct query `"bye"` at 180 seconds passes
`check_spam`. -/
theorem claim_C6_amended_witness :
    (validate_query (validate_query (validate_query (validate_query
        initialSafetyState 0 (("u2").toList) (("ok").toList)).2 60
        (("u2").toList) (("ok").toList)).2 120 (("u2").toList)
        (("ok").toList)).2 180 (("u2").toList) (("ok").toList)).1 =
      (false, spamRepeatMsg) ∧
    check_spam (validate_query (validate_query (validate_query
        initialSafetyState 0 (("u2").toList) (("ok").toList)).2 60
        (("u2").toList) (("ok").toList)).2 120 (("u2").toList)
        (("ok").toList)).2 180 (("u2").toList) (("bye").toList) =
      (false, []) :=
  ⟨(claim_C6_amended (("u2").toList) (("ok").toList) (("bye").toList) 0 60 120
      180 (by norm_num) (by norm_num) (by norm_num) (by norm_num) (by decide)
      (by decide) (by decide) (by decide) (by decide) (by decide)).2.2.2.1,
   (claim_C6_amended (("u2").toList) (("ok").toList) (("bye").toList) 0 60 120
      180 (by norm_num) (by norm_num) (by norm_num) (by norm_num) (by decide)
      (by decide) (by decide) (by decide) (by decide) (by decide)).2.2.2.2⟩

end Fleety
